import Mathlib

/-!
Verification of the live-document registry of `makepad-rs`
(`src/render/live_parser/src/liveregistry.rs`).

The registry stores raw parsed "live documents" keyed by crate/module,
maintains a dependency graph and an incrementally repaired processing order,
marks dependents dirty on re-parse, and expands dirty documents (resolving
class inheritance and identifiers) in dependency order.

The embedding below translates `liveregistry.rs` into Lean.  The supporting
types and table operations of `livedocument.rs`, `id.rs`, `livenode.rs`,
`lex.rs` and `liveparser.rs` are not part of the provided sources; where a
definition stands in for one of those it carries a doc comment starting with
`Modelled from the spec:` and is kept to the spec's wording.  Machine
integers (`u32`, `u16`, `usize`) are modelled as `Nat`: none of the verified
operations can overflow them on the inputs considered, and the source never
relies on wrap-around.  Error message formatting (`format!`) is out of scope
(the spec excludes pretty-printing), so error messages are modelled as a
structured inductive carrying the formatted arguments.  Rust `HashMap` /
`HashSet` are modelled as association lists / duplicate-free lists; the one
place their nondeterministic iteration order is observable (`mark_dirty`)
only produces an order-independent result (the set of dirty flags), so the
list order is a sound determinization.  Unbounded recursion (`mark_dirty`,
`copy_recur`, `walk_node`, the base-class chase of `find_component_origin`)
is modelled with explicit fuel counting recursion depth; `panic!` /
`unwrap()` are modelled as a distinct `panicked` outcome.
-/

set_option maxRecDepth 4000

namespace MakepadLive

/-- Interned identifier symbol (`Id` in `id.rs`); the payload is the interned
index.  Index `0` is the empty id (`Id::is_empty`). -/
abbrev LId := Nat

/-- Modelled from the spec: the reserved built-in root-kind identifiers used
by `is_baseclass`, plus the `Self` keyword id, as distinct interned symbols.
User identifiers are taken `≥ 10` in concrete instances. -/
def idEmpty : LId := 0

def idComponent : LId := 1

def idEnum : LId := 2

def idStruct : LId := 3

def idShader : LId := 4

def idVariant : LId := 5

def idSelfKw : LId := 6

/-- File identity (`FileId` in `id.rs`): an index into the parallel
`live_files` / `expanded` registries. -/
structure FileId where
  idx : Nat
deriving DecidableEq, Repr

def FileId.to_index (f : FileId) : Nat := f.idx

def FileId.index (n : Nat) : FileId := ⟨n⟩

instance : Inhabited FileId := ⟨⟨0⟩⟩

/-- Local node pointer: (level, index) within one document. -/
structure LocalNodePtr where
  level : Nat
  index : Nat
deriving DecidableEq, Repr

/-- Full node pointer: file identity plus local pointer — the only way to
reference another file's nodes. -/
structure FullNodePtr where
  file_id : FileId
  local_ptr : LocalNodePtr
deriving DecidableEq, Repr

/-- Identifier encoding (`IdPack` in `id.rs`): empty wildcard marker, single
id, multi-segment path (index/count into a document's `multi_ids` table), or
a resolved cross-file node pointer. -/
inductive IdPack where
  | empty : IdPack
  | single (id : LId) : IdPack
  | multi (index count : Nat) : IdPack
  | fullPtr (p : FullNodePtr) : IdPack
deriving DecidableEq, Repr

/-- `IdPack::node_ptr(file_id, local_ptr)`. -/
def IdPack.node_ptr (fid : FileId) (lp : LocalNodePtr) : IdPack :=
  .fullPtr ⟨fid, lp⟩

def IdPack.is_multi : IdPack → Bool
  | .multi _ _ => true
  | _ => false

def IdPack.unwrap_multi : IdPack → Nat × Nat
  | .multi i c => (i, c)
  | _ => (0, 0)

/-- `id_pack!(Self)`. -/
def idPackSelf : IdPack := .single idSelfKw

/-- Token reference: file identity plus index into that file's token table. -/
structure TokenId where
  file_id : FileId
  token_id : Nat
deriving DecidableEq, Repr

instance : Inhabited TokenId := ⟨⟨⟨0⟩, 0⟩⟩

/-- Modelled from the spec: a source span; errors carry one so they can be
rendered lazily.  Only its identity matters here, so it is the originating
token reference. -/
structure Span where
  file_id : FileId
  tok : Nat
deriving DecidableEq, Repr

/-- Modelled from the spec: lexer token, as far as `find_component_origin`
inspects it (`Token::Ident` versus anything else). -/
inductive Token where
  | ident (id : LId) : Token
  | other (code : Nat) : Token
deriving DecidableEq, Repr

instance : Inhabited Token := ⟨.other 0⟩

/-- Crate/module key (`CrateModule(Id, Id)`). -/
structure CrateModule where
  crateId : LId
  moduleId : LId
deriving DecidableEq, Repr

/-- Node value (`LiveValue` in `livenode.rs`), one constructor per source
variant.  Float / color / vector payloads are uninterpreted bit payloads:
no verified operation computes with them, they are only copied. -/
inductive LiveValue where
  | str (string_start string_count : Nat) : LiveValue
  | boolV (b : Bool) : LiveValue
  | intV (v : Int) : LiveValue
  | floatV (bits : Nat) : LiveValue
  | colorV (bits : Nat) : LiveValue
  | vec2V (bits : Nat) : LiveValue
  | vec3V (bits : Nat) : LiveValue
  | idPack (id : IdPack) : LiveValue
  | call (target : IdPack) (node_start node_count : Nat) : LiveValue
  | arrayV (node_start node_count : Nat) : LiveValue
  | objectV (node_start node_count : Nat) : LiveValue
  | cls (base : IdPack) (node_start node_count : Nat) : LiveValue
  | fnV (token_start token_count scope_start scope_count : Nat) : LiveValue
  | varDef (token_start token_count scope_start scope_count : Nat) : LiveValue
  | resourceRef (target : IdPack) : LiveValue
  | useImport (crate_module : CrateModule) : LiveValue
deriving DecidableEq, Repr

/-- One entry in a document tree (`LiveNode`). -/
structure LiveNode where
  token_id : TokenId
  id_pack : IdPack
  value : LiveValue
deriving DecidableEq, Repr

instance : Inhabited LiveNode := ⟨⟨default, .empty, .boolV false⟩⟩

/-- Scope binding target (`LiveScopeTarget` in `livedocument.rs`): local
same-file pointer or full cross-file pointer. -/
inductive LiveScopeTarget where
  | localPtr (p : LocalNodePtr) : LiveScopeTarget
  | fullPtr (p : FullNodePtr) : LiveScopeTarget
deriving DecidableEq, Repr

/-- One scope binding (`LiveScopeItem`). -/
structure LiveScopeItem where
  id : LId
  target : LiveScopeTarget
deriving DecidableEq, Repr

/-- Modelled from the spec: per-file tree storage (`LiveDocument` in
`livedocument.rs`): nodes organized by nesting level, an interned-string
table (character payloads), a token table, a scope-capture table, a
multi-segment-id table, and the `recompile` (dirty) flag.  A freshly created
document is dirty, so that the first expansion pass after its first parse
rebuilds it. -/
structure LiveDocument where
  nodes : List (List LiveNode) := []
  strings : List Nat := []
  tokens : List Token := []
  scopes : List LiveScopeItem := []
  multi_ids : List LId := []
  recompile : Bool := true
deriving DecidableEq, Repr

instance : Inhabited LiveDocument := ⟨{}⟩

/-- `LiveDocument::new()`. -/
def LiveDocument.new : LiveDocument := {}

/-- Contiguous slice `xs[start .. start+count)`. -/
def listSlice (xs : List α) (start count : Nat) : List α :=
  (xs.drop start).take count

/-- Number of nodes currently at a level (0 for a level not created yet). -/
def LiveDocument.get_level_len (d : LiveDocument) (level : Nat) : Nat :=
  (d.nodes.getD level []).length

/-- Append a node at a level of the level list, creating empty intermediate
levels as needed (nodes are append-only within a level). -/
def pushAtLevel : List (List LiveNode) → Nat → LiveNode → List (List LiveNode)
  | [], 0, n => [[n]]
  | [], l + 1, n => [] :: pushAtLevel [] l n
  | x :: xs, 0, n => (x ++ [n]) :: xs
  | x :: xs, l + 1, n => x :: pushAtLevel xs l n

def LiveDocument.push_node (d : LiveDocument) (level : Nat) (n : LiveNode) :
    LiveDocument :=
  { d with nodes := pushAtLevel d.nodes level n }

/-- Node lookup at (level, index); total with a default, standing in for
Rust's panicking index (no verified run goes out of bounds). -/
def LiveDocument.getNode (d : LiveDocument) (level index : Nat) : LiveNode :=
  (d.nodes.getD level []).getD index default

/-- `LiveDocument::resolve_ptr` (dereference a local pointer). -/
def LiveDocument.resolve_ptr (d : LiveDocument) (lp : LocalNodePtr) : LiveNode :=
  d.getNode lp.level lp.index

/-- Replace the node stored at (level, index) (no-op out of range). -/
def LiveDocument.setNode (d : LiveDocument) (level index : Nat) (n : LiveNode) :
    LiveDocument :=
  { d with nodes := d.nodes.set level ((d.nodes.getD level []).set index n) }

/-- Modelled from the spec: `LiveDocument::token_id_to_span` resolves a token
reference to its source span; with spans modelled by their originating token
this is the evident injection. -/
def LiveDocument.token_id_to_span (_d : LiveDocument) (t : TokenId) : Span :=
  ⟨t.file_id, t.token_id⟩

/-- Modelled from the spec: `fetch_crate_module` normalizes the `crate`
keyword of a use-import to the current crate id.  The embedding stores the
already-normalized crate-module on the `Use` node, so this is the identity;
the current-crate argument is kept to mirror the call sites. -/
def LiveDocument.fetch_crate_module (_d : LiveDocument) (cm : CrateModule)
    (_crate_id : LId) : CrateModule :=
  cm

/-- Modelled from the spec: `clone_multi_id` re-expresses a multi-segment id
in the destination's multi-id table when copying cross-document, appending
the segment run and returning the rebased pack; non-multi ids are returned
unchanged. -/
def LiveDocument.clone_multi_id (d : LiveDocument) (target : IdPack)
    (src_multi : List LId) : LiveDocument × IdPack :=
  match target with
  | .multi i c =>
      ({ d with multi_ids := d.multi_ids ++ listSlice src_multi i c },
        .multi d.multi_ids.length c)
  | t => (d, t)

/-- Error message payloads (`format!` strings of `liveregistry.rs`), one
constructor per `format!` call site, carrying the formatted arguments.
Rendering the text itself is out-of-scope pretty-printing. -/
inductive ErrMsg where
  | cannotFindDependency (cm : CrateModule) : ErrMsg
  | cannotUseBaseclass (base : LId) : ErrMsg
  | propertyNotClass (base : LId) (path : IdPack) : ErrMsg
  | cannotFindItemOnScopeOf (base : LId) (path : IdPack) : ErrMsg
  | cannotFindItemOnScope (id : IdPack) : ErrMsg
  | targetNotCall (id : IdPack) : ErrMsg
  | cannotFindImport (id : IdPack) : ErrMsg
  | usePathNotFound (id : IdPack) : ErrMsg
  | nodeTypeInvalid (id : IdPack) : ErrMsg
  | cannotOverrideNonClass (base : IdPack) : ErrMsg
  | scanNotFound (id_start id_count : Nat) : ErrMsg
deriving DecidableEq, Repr

/-- Structured expansion error (`LiveError`): source span plus message.  The
`origin` tag (source file/line of the reporting statement) is dropped: it
identifies the reporting site, which the message constructor already does. -/
structure LiveError where
  span : Span
  message : ErrMsg
deriving DecidableEq, Repr

/-- One registered file (`LiveFile`): crate-module key, display name, source
text, and the raw parsed document. -/
structure LiveFile where
  crate_module : CrateModule
  file : String
  source : String
  document : LiveDocument
deriving DecidableEq, Repr

instance : Inhabited LiveFile := ⟨⟨⟨0, 0⟩, "", "", {}⟩⟩

/-- The registry (`LiveRegistry`).  `HashMap`s are modelled as association
lists (first match wins, insert replaces in place or appends), `HashSet`s as
lists inserted without duplicates. -/
structure LiveRegistry where
  file_ids : List (String × FileId) := []
  crate_module_to_file_id : List (CrateModule × FileId) := []
  live_files : List LiveFile := []
  dep_order : List (CrateModule × TokenId) := []
  dep_graph : List (CrateModule × List CrateModule) := []
  expanded : List LiveDocument := []
deriving DecidableEq, Repr

instance : Inhabited LiveRegistry := ⟨{}⟩

/-- Association-list lookup (`HashMap::get`): first binding of the key. -/
def alistGet [DecidableEq α] : List (α × β) → α → Option β
  | [], _ => none
  | (k', v) :: rest, k => if k' = k then some v else alistGet rest k

/-- Association-list insert (`HashMap::insert`): replace the existing
binding in place, else append. -/
def alistPut [DecidableEq α] : List (α × β) → α → β → List (α × β)
  | [], k, v => [(k, v)]
  | (k', v') :: rest, k, v =>
      if k' = k then (k, v) :: rest else (k', v') :: alistPut rest k v

/-- Duplicate-free list insert (`HashSet::insert`). -/
def setInsert [DecidableEq α] (l : List α) (a : α) : List α :=
  if a ∈ l then l else l ++ [a]

/-- Set the `recompile` flag of the expanded document of a file identity
(no-op out of range, mirroring that registered ids are always in range). -/
def LiveRegistry.setRecompile (reg : LiveRegistry) (fid : FileId) (b : Bool) :
    LiveRegistry :=
  { reg with
    expanded := reg.expanded.set fid.to_index
      { reg.expanded.getD fid.to_index {} with recompile := b } }

/-- The direct importers of `cm`: every crate-module whose dependency set
contains `cm`, in `dep_graph` order (the Rust iterates a `HashMap` here in
unspecified order; only the resulting set of dirty flags is observed). -/
def LiveRegistry.directImporters (reg : LiveRegistry) (cm : CrateModule) :
    List CrateModule :=
  (reg.dep_graph.filter (fun p => cm ∈ p.2)).map (·.1)

/-- The body of `mark_dirty` before recursing: flag `cm`'s expanded document
dirty when `cm` is registered. -/
def LiveRegistry.markSelf (reg : LiveRegistry) (cm : CrateModule) :
    LiveRegistry :=
  match alistGet reg.crate_module_to_file_id cm with
  | some fid => reg.setRecompile fid true
  | none => reg

/-- A pending `mark_dirty` activation: `inl cm` is a call `mark_dirty(cm)`,
`inr ds` is the `for d in dirty { mark_dirty(d, registry) }` loop over the
remaining dirty list `ds`. -/
def markDirtyF : Nat → Sum CrateModule (List CrateModule) → LiveRegistry →
    Option LiveRegistry
  | 0, _, _ => none
  | f + 1, .inl cm, reg =>
      markDirtyF f (.inr (reg.directImporters cm)) (reg.markSelf cm)
  | _ + 1, .inr [], reg => some reg
  | f + 1, .inr (d :: ds), reg =>
      match markDirtyF f (.inl d) reg with
      | none => none
      | some reg2 => markDirtyF f (.inr ds) reg2

/-- `mark_dirty` (nested fn of `parse_live_file`): flag `cm` dirty, then
recurse into every crate-module whose dependency set contains `cm`.  The
source recursion carries no visited set; `fuel` bounds the number of
activations, `none` meaning the Rust recursion would still be running (or
overflowing the stack) within that budget. -/
def markDirty (fuel : Nat) (cm : CrateModule) (reg : LiveRegistry) :
    Option LiveRegistry :=
  markDirtyF fuel (.inl cm) reg

/-- `Vec::insert(i, a)`: insert before position `i` (appends when `i` is past
the end; the source only ever inserts at a valid existing position). -/
def insertAt : Nat → α → List α → List α
  | 0, a, xs => a :: xs
  | _ + 1, a, [] => [a]
  | n + 1, a, x :: xs => x :: insertAt n a xs

/-- `Vec::remove(i)` (no-op when `i` is past the end). -/
def eraseAt : Nat → List α → List α
  | _, [] => []
  | 0, _ :: xs => xs
  | n + 1, x :: xs => x :: eraseAt n xs

/-- First position of crate-module `cm` in the processing order
(`dep_order.iter().position(|v| v.0 == cm)`). -/
def depOrderPos (order : List (CrateModule × TokenId)) (cm : CrateModule) :
    Option Nat :=
  order.findIdx? (fun v => v.1 = cm)

/-- The dependency-order repair performed for one use-import (`parse_live_file`,
`LiveValue::Use` arm): with `self_index` the importer's position, an import
already present after the importer is removed and re-inserted immediately
before the importer; an absent import is inserted immediately before the
importer; an import already at or before the importer is left alone.
`none` models the `unwrap()` on the importer's position (the importer is
always present when this runs). -/
def depOrderStep (own use_cm : CrateModule) (tok : TokenId)
    (order : List (CrateModule × TokenId)) :
    Option (List (CrateModule × TokenId)) :=
  match depOrderPos order own with
  | none => none
  | some self_index =>
      match depOrderPos order use_cm with
      | some other_index =>
          if self_index < other_index then
            some (insertAt self_index (use_cm, tok) (eraseAt other_index order))
          else
            some order
      | none => some (insertAt self_index (use_cm, tok) order)

/-- Outcome of an operation that may `panic!` (or `unwrap()` a `None`) or
exceed the modelled recursion-depth budget. -/
inductive Outcome (α : Type u) where
  | ok (a : α) : Outcome α
  | panicked : Outcome α
  | nofuel : Outcome α
deriving DecidableEq, Repr

/-- `LiveRegistry::is_baseclass`: the reserved built-in root-kind ids. -/
def is_baseclass (id : IdPack) : Bool :=
  id = IdPack.single idComponent || id = IdPack.single idEnum ||
  id = IdPack.single idStruct || id = IdPack.single idShader ||
  id = IdPack.single idVariant

/-- The `dep_graph_set` / `dep_order` accumulation over one node of the
use-import scan of `parse_live_file` (non-`Use` nodes are skipped). -/
def parseUseNode (own : CrateModule) (crate_id : LId) (doc : LiveDocument)
    (node : LiveNode)
    (st : List CrateModule × List (CrateModule × TokenId)) :
    Option (List CrateModule × List (CrateModule × TokenId)) :=
  match node.value with
  | .useImport cm0 =>
      let cm := doc.fetch_crate_module cm0 crate_id
      match depOrderStep own cm node.token_id st.2 with
      | none => none
      | some order2 => some (setInsert st.1 cm, order2)
  | _ => some st

/-- The use-import scan of `parse_live_file` over one level's node list. -/
def parseUseLevel (own : CrateModule) (crate_id : LId) (doc : LiveDocument) :
    List LiveNode → (List CrateModule × List (CrateModule × TokenId)) →
    Option (List CrateModule × List (CrateModule × TokenId))
  | [], st => some st
  | n :: ns, st =>
      match parseUseNode own crate_id doc n st with
      | none => none
      | some st2 => parseUseLevel own crate_id doc ns st2

/-- The use-import scan of `parse_live_file` over all levels, in level order
(`for (_, nodes) in document.nodes.iter().enumerate()`). -/
def parseUseLevels (own : CrateModule) (crate_id : LId) (doc : LiveDocument) :
    List (List LiveNode) →
    (List CrateModule × List (CrateModule × TokenId)) →
    Option (List CrateModule × List (CrateModule × TokenId))
  | [], st => some st
  | ns :: rest, st =>
      match parseUseLevel own crate_id doc ns st with
      | none => none
      | some st2 => parseUseLevels own crate_id doc rest st2

/-- Modelled from the spec: the result of the out-of-scope lexer and parser
(`lex` of `lex.rs` composed with `LiveParser::parse_live_document` of
`liveparser.rs`): either a raw document — with the lexer's string and token
tables already attached, mirroring lines 199–200 of the source — or a
lex/parse failure carrying a human-readable message. -/
inductive LexParse where
  | failed (msg : String) : LexParse
  | parsed (doc : LiveDocument) : LexParse
deriving DecidableEq, Repr

/-- The tail of `parse_live_file` after the dirty-marking step: scan the
use-imports (recomputing the dependency set and repairing the processing
order), store the dependency set, the live file and the crate-module
mapping, and push or replace the file and expanded-document entries. -/
def parse_finish (reg1 : LiveRegistry) (own_crate_module : CrateModule)
    (is_new_file_id : Bool) (file_id : FileId) (file source : String)
    (document : LiveDocument) : Outcome (LiveRegistry × FileId) :=
  match parseUseLevels own_crate_module own_crate_module.crateId document
      document.nodes ([], reg1.dep_order) with
  | none => .panicked
  | some (dep_graph_set, dep_order2) =>
      let reg2 := { reg1 with
        dep_order := dep_order2,
        dep_graph :=
          alistPut reg1.dep_graph own_crate_module dep_graph_set }
      let live_file : LiveFile :=
        ⟨own_crate_module, file, source, document⟩
      let reg3 := { reg2 with
        crate_module_to_file_id :=
          alistPut reg2.crate_module_to_file_id own_crate_module
            file_id }
      if is_new_file_id then
        .ok ({ reg3 with
                file_ids := alistPut reg3.file_ids file file_id,
                live_files := reg3.live_files ++ [live_file],
                expanded := reg3.expanded ++ [LiveDocument.new] },
             file_id)
      else
        .ok ({ reg3 with
                live_files :=
                  reg3.live_files.set file_id.to_index live_file,
                expanded := reg3.expanded.set file_id.to_index
                  { reg3.expanded.getD file_id.to_index {} with
                    recompile := true } },
             file_id)

/-- `LiveRegistry::parse_live_file`.  `lexparse` stands for the result of
running the external lexer/parser on `source`; `fuel` bounds the
`mark_dirty` recursion.  On a lex or parse failure the source executes
`panic!`, modelled as `.panicked`; the declared `Err(LiveFileError)` variant
of its return type is never produced, so the result type here carries no
error case. -/
def parse_live_file (fuel : Nat) (reg : LiveRegistry) (lexparse : LexParse)
    (file : String) (crate_id module_id : LId) (source : String) :
    Outcome (LiveRegistry × FileId) :=
  let new_and_id : Bool × FileId :=
    match alistGet reg.file_ids file with
    | some fid => (false, fid)
    | none => (true, FileId.index reg.live_files.length)
  match lexparse with
  | .failed _ => .panicked
  | .parsed document =>
      let own_crate_module : CrateModule := ⟨crate_id, module_id⟩
      let afterMark : Option LiveRegistry :=
        if (depOrderPos reg.dep_order own_crate_module).isNone then
          some { reg with
                 dep_order := reg.dep_order ++ [(own_crate_module, default)] }
        else
          markDirty fuel own_crate_module reg
      match afterMark with
      | none => .nofuel
      | some reg1 =>
          parse_finish reg1 own_crate_module new_and_id.1 new_and_id.2 file
            source document

/-- Lexical scope stack (nested `ScopeStack` of `expand_all_documents`):
frames of bindings, innermost frame last. -/
structure ScopeStack where
  stack : List (List LiveScopeItem)
deriving DecidableEq, Repr

/-- `ScopeStack::find_item`: scan frames innermost (last pushed) to
outermost, and within each frame scan bindings last-inserted first,
returning the first match. -/
def ScopeStack.find_item (s : ScopeStack) (id : LId) :
    Option LiveScopeTarget :=
  s.stack.reverse.findSome? fun items =>
    items.reverse.findSome? fun item =>
      if item.id = id then some item.target else none

/-- Push a binding onto the frame at stack index `level`
(`scope_stack.stack[level].push(item)`); a no-op out of range, mirroring
that the walker only pushes at existing frame indices. -/
def ScopeStack.pushAt (s : ScopeStack) (level : Nat) (item : LiveScopeItem) :
    ScopeStack :=
  ⟨s.stack.set level ((s.stack.getD level []) ++ [item])⟩

/-- Modelled from the spec: id match used by the write/merge policy — exact
match for single ids, and the dedicated multi-segment routine (equality of
the addressed segment runs) for path ids. -/
def idsMatchForWrite (dest_multi : List LId) (dest_id : IdPack)
    (src_multi : List LId) (src_id : IdPack) : Bool :=
  match dest_id, src_id with
  | .single a, .single b => a = b
  | .multi di dc, .multi si sc =>
      listSlice dest_multi di dc = listSlice src_multi si sc
  | _, _ => false

/-- Scan positions `start ≤ i < start + count` of a level for the first node
whose id matches the incoming node's id. -/
def scanForWrite (lvl_nodes : List LiveNode) (start count : Nat)
    (dest_multi src_multi : List LId) (src_id : IdPack) : Option Nat :=
  match count with
  | 0 => none
  | c + 1 =>
      if idsMatchForWrite dest_multi (lvl_nodes.getD start default).id_pack
          src_multi src_id then
        some start
      else
        scanForWrite lvl_nodes (start + 1) c dest_multi src_multi src_id

/-- Modelled from the spec: `LiveDocument::write_or_add_node` — scan the
destination entries in `[node_start, node_start + node_count)` at `level`
for an id match; if found the existing entry is overwritten in place (its
value replaced, its position and id preserved) and no index is returned;
otherwise the node is appended and the new index is returned so the caller
can register it as a scope-visible name. -/
def LiveDocument.write_or_add_node (out_doc : LiveDocument)
    (level node_start node_count : Nat) (in_doc : LiveDocument)
    (n : LiveNode) : LiveDocument × Option Nat :=
  match scanForWrite (out_doc.nodes.getD level []) node_start node_count
      out_doc.multi_ids in_doc.multi_ids n.id_pack with
  | some i =>
      let old := out_doc.getNode level i
      (out_doc.setNode level i
        { old with value := n.value, token_id := n.token_id }, none)
  | none =>
      (out_doc.push_node level n, some (out_doc.get_level_len level))

/-- Modelled from the spec: `LiveDocument::scan_for_multi` — follow the path
segments from the top level through nested class bodies and return the
pointer of the named node (used by `find_component_origin`). -/
def scan_for_multi_go (d : LiveDocument) (level start count : Nat) :
    List LId → Option LocalNodePtr
  | [] => none
  | seg :: rest =>
      match (listSlice (d.nodes.getD level []) start count).findIdx?
          (fun n => n.id_pack = IdPack.single seg) with
      | none => none
      | some off =>
          let i := start + off
          match rest with
          | [] => some ⟨level, i⟩
          | _ :: _ =>
              match (d.getNode level i).value with
              | .cls _ ns nc => scan_for_multi_go d (level + 1) ns nc rest
              | _ => none

def LiveDocument.scan_for_multi (d : LiveDocument) (ids : List LId) :
    Option LocalNodePtr :=
  scan_for_multi_go d 0 0 (d.get_level_len 0) ids

/-- Modelled from the spec: `LiveDocument::scan_for_multi_for_expand` —
resolve the segments after the already-resolved head of a path id
(`multi_ids[id_start .. id_start + id_count)`, head at offset 0) inside the
window `[node_start, node_start + node_count)` at `level`, descending
through nested class bodies one segment at a time; failure at any segment
reports the full original path. -/
def scanForExpandGo (d : LiveDocument) (level node_start node_count : Nat)
    (multi : List LId) (id_start id_count : Nat) :
    List LId → Except ErrMsg LocalNodePtr
  | [] => .error (.scanNotFound id_start id_count)
  | seg :: rest =>
      match (listSlice (d.nodes.getD level []) node_start node_count).findIdx?
          (fun n => n.id_pack = IdPack.single seg) with
      | none => .error (.scanNotFound id_start id_count)
      | some off =>
          let i := node_start + off
          match rest with
          | [] => .ok ⟨level, i⟩
          | _ :: _ =>
              match (d.getNode level i).value with
              | .cls _ ns nc =>
                  scanForExpandGo d (level + 1) ns nc multi id_start id_count
                    rest
              | _ => .error (.scanNotFound id_start id_count)

def LiveDocument.scan_for_multi_for_expand (d : LiveDocument)
    (level node_start node_count id_start id_count : Nat)
    (multi : List LId) : Except ErrMsg LocalNodePtr :=
  scanForExpandGo d level node_start node_count multi id_start id_count
    ((listSlice multi id_start id_count).drop 1)

/-- Result of the structural copy (`CopyRecurResult`): whether the copied
root was itself a class, so the caller can decide whether override fields
are legal.  The `Error` variant exists in the source but is never built. -/
inductive CopyRecurResult where
  | isClass (base : IdPack) : CopyRecurResult
  | noop : CopyRecurResult
  | errorRes : CopyRecurResult
deriving DecidableEq, Repr

/-- The `clone_scope` helper nested in `copy_recur`: append a captured-scope
run to the destination, re-expressing local captures as full cross-file
pointers (a local capture in the source document is no longer local in the
destination). -/
def clone_scope (in_doc : LiveDocument) (out_doc : LiveDocument)
    (scope_start scope_count : Nat) (in_file_id : FileId) : LiveDocument :=
  { out_doc with
    scopes := out_doc.scopes ++
      (listSlice in_doc.scopes scope_start scope_count).map fun item =>
        match item.target with
        | .localPtr lp =>
            ⟨item.id, .fullPtr ⟨in_file_id, lp⟩⟩
        | .fullPtr _ => item }

/-- A pending structural-copy activation: `one` is a `copy_recur` call,
`many` one of its `for i in 0..node_count` child-copy loops with `count`
iterations remaining (the loop's result component is `noop` and unused, as
the source loops discard the child results). -/
inductive CopyCall where
  | one (out_doc : LiveDocument) (skip_level_id : IdPack)
      (skip_level in_level out_level in_index : Nat) : CopyCall
  | many (out_doc : LiveDocument) (skip_level_id : IdPack)
      (skip_level in_level out_level node_start count : Nat) : CopyCall

/-- `copy_recur` and its child loops: deep-copy the subtree rooted at
`(in_level, in_index)` of the source (`in_doc`, or `out_doc` itself when
`in_doc` is `none`) into `out_doc` at `out_level`, renaming the root to
`skip_level_id` at `skip_level` and skipping the root class node itself
there.  Interned data (strings, tokens, captured scopes, multi-segment ids)
is relocated into the destination tables when the copy crosses documents.
The source threads an unused `&mut ScopeStack` through this function; it is
dropped here.  `fuel` bounds the number of activations, `none` meaning the
budget was exceeded. -/
def copyF (in_doc : Option (LiveDocument × FileId)) :
    Nat → CopyCall → Option (CopyRecurResult × LiveDocument)
  | 0, _ => none
  | _ + 1, .many out_doc _ _ _ _ _ 0 => some (.noop, out_doc)
  | f + 1, .many out_doc skip_level_id skip_level in_level out_level
      node_start (c + 1) =>
      (match copyF in_doc f (.one out_doc skip_level_id skip_level in_level
          out_level node_start) with
      | none => none
      | some (_, od) =>
          copyF in_doc f (.many od skip_level_id skip_level in_level
            out_level (node_start + 1) c))
  | f + 1, .one out_doc skip_level_id skip_level in_level out_level
      in_index =>
    let node :=
      match in_doc with
      | some (d, _) => d.getNode in_level in_index
      | none => out_doc.getNode in_level in_index
    let node_id := if skip_level = in_level then skip_level_id else node.id_pack
    match node.value with
    | .call target ns nc =>
        let out_start := out_doc.get_level_len (out_level + 1)
        match copyF in_doc f (.many out_doc skip_level_id skip_level
            (in_level + 1) (out_level + 1) ns nc) with
        | none => none
        | some (_, od) =>
            some (.noop, od.push_node out_level
              ⟨node.token_id, node_id, .call target out_start nc⟩)
    | .arrayV ns nc =>
        let out_start := out_doc.get_level_len (out_level + 1)
        match copyF in_doc f (.many out_doc skip_level_id skip_level
            (in_level + 1) (out_level + 1) ns nc) with
        | none => none
        | some (_, od) =>
            some (.noop, od.push_node out_level
              ⟨node.token_id, node_id, .arrayV out_start nc⟩)
    | .objectV ns nc =>
        let out_start := out_doc.get_level_len (out_level + 1)
        match copyF in_doc f (.many out_doc skip_level_id skip_level
            (in_level + 1) (out_level + 1) ns nc) with
        | none => none
        | some (_, od) =>
            some (.noop, od.push_node out_level
              ⟨node.token_id, node_id, .objectV out_start nc⟩)
    | .useImport _ =>
        some (.noop, out_doc)
    | .cls base ns nc =>
        if base = idPackSelf then
          some (.noop, out_doc)
        else
          let out_start := out_doc.get_level_len (out_level + 1)
          match copyF in_doc f (.many out_doc skip_level_id skip_level
              (in_level + 1) (out_level + 1) ns nc) with
          | none => none
          | some (_, od) =>
              if skip_level ≠ in_level then
                some (.isClass base, od.push_node out_level
                  ⟨node.token_id, node.id_pack, .cls base out_start nc⟩)
              else
                some (.isClass base, od)
    | .str string_start string_count =>
        let doc_and_start : LiveDocument × Nat :=
          match in_doc with
          | some (d, _) =>
              ({ out_doc with
                 strings := out_doc.strings ++
                   listSlice d.strings string_start string_count },
               out_doc.strings.length)
          | none => (out_doc, string_start)
        some (.noop, doc_and_start.1.push_node out_level
          ⟨node.token_id, node_id, .str doc_and_start.2 string_count⟩)
    | .fnV token_start token_count scope_start scope_count =>
        let rebased : LiveDocument × Nat × Nat :=
          match in_doc with
          | some (d, in_file_id) =>
              (clone_scope d
                { out_doc with
                  tokens := out_doc.tokens ++
                    listSlice d.tokens token_start token_count }
                scope_start scope_count in_file_id,
               out_doc.tokens.length, out_doc.scopes.length)
          | none => (out_doc, token_start, scope_start)
        some (.noop, rebased.1.push_node out_level
          ⟨node.token_id, node_id,
            .fnV rebased.2.1 token_count rebased.2.2 scope_count⟩)
    | .varDef token_start token_count scope_start scope_count =>
        let rebased : LiveDocument × Nat × Nat :=
          match in_doc with
          | some (d, in_file_id) =>
              (clone_scope d
                { out_doc with
                  tokens := out_doc.tokens ++
                    listSlice d.tokens token_start token_count }
                scope_start scope_count in_file_id,
               out_doc.tokens.length, out_doc.scopes.length)
          | none => (out_doc, token_start, scope_start)
        some (.noop, rebased.1.push_node out_level
          ⟨node.token_id, node_id,
            .varDef rebased.2.1 token_count rebased.2.2 scope_count⟩)
    | .resourceRef target =>
        let doc_and_target : LiveDocument × IdPack :=
          match in_doc with
          | some (d, _) => out_doc.clone_multi_id target d.multi_ids
          | none => (out_doc, target)
        some (.noop, doc_and_target.1.push_node out_level
          ⟨node.token_id, node_id, .resourceRef doc_and_target.2⟩)
    | v =>
        some (.noop, out_doc.push_node out_level
          ⟨node.token_id, node_id, v⟩)

/-- `copy_recur` proper: run a single copy activation. -/
def copy_recur (fuel : Nat) (in_doc : Option (LiveDocument × FileId))
    (out_doc : LiveDocument) (skip_level_id : IdPack)
    (skip_level in_level out_level in_index : Nat) :
    Option (CopyRecurResult × LiveDocument) :=
  copyF in_doc fuel
    (.one out_doc skip_level_id skip_level in_level out_level in_index)

/-- Mutable walker state threaded through `walk_node`: the shared error
list, the scope stack, and the output document under construction. -/
structure WalkSt where
  errors : List LiveError
  scope_stack : ScopeStack
  out_doc : LiveDocument
deriving DecidableEq, Repr

/-- Read-only context of `walk_node`: the previously expanded sibling
documents, the crate-module registry, the current crate, the current file
identity and the raw input document. -/
structure WalkCtx where
  expanded : List LiveDocument
  crate_module_to_file_id : List (CrateModule × FileId)
  in_crate : LId
  in_file_id : FileId
  in_doc : LiveDocument
deriving Repr

/-- The nested `write_or_add_node` helper of `expand_all_documents`: write
or append via the document-level policy and, when a new entry was appended
at the level matching the innermost frame, register its single id as a
scope-visible name.  (The document-level error case of the source cannot
arise in the modelled policy.) -/
def write_or_add_walk (st : WalkSt) (level node_start node_count : Nat)
    (in_doc : LiveDocument) (in_node : LiveNode) : WalkSt :=
  let doc_and_index := st.out_doc.write_or_add_node level node_start
    node_count in_doc in_node
  match doc_and_index.2 with
  | some index =>
      if st.scope_stack.stack.length - 1 = level then
        match in_node.id_pack with
        | .single id =>
            { st with
              out_doc := doc_and_index.1,
              scope_stack := st.scope_stack.pushAt level
                ⟨id, .localPtr ⟨level, index⟩⟩ }
        | _ => { st with out_doc := doc_and_index.1 }
      else
        { st with out_doc := doc_and_index.1 }
  | none => { st with out_doc := doc_and_index.1 }

/-- `resolve_id` (nested fn of `expand_all_documents`): resolve an
identifier against `Self` (the currently open output span), reject reserved
base-type names, or look the head up in the scope stack and resolve the
remaining segments as nested-class fields; a full-pointer hit reports the
owning file. -/
def resolve_id (rid : IdPack) (expanded : List LiveDocument)
    (token_id : TokenId) (scope_stack : ScopeStack) (in_doc : LiveDocument)
    (out_doc : LiveDocument) (out_level out_start : Nat) :
    Except LiveError (Option FileId × LocalNodePtr) :=
  match rid with
  | .multi id_start id_count =>
      let base := in_doc.multi_ids.getD id_start idEmpty
      if base = idSelfKw then
        let out_count := out_doc.get_level_len out_level - out_start
        match out_doc.scan_for_multi_for_expand out_level out_start out_count
            id_start id_count in_doc.multi_ids with
        | .ok found_node => .ok (none, found_node)
        | .error message =>
            .error ⟨out_doc.token_id_to_span token_id, message⟩
      else if is_baseclass (.single base) then
        .error ⟨in_doc.token_id_to_span token_id, .cannotUseBaseclass base⟩
      else
        match scope_stack.find_item base with
        | some (.localPtr node_ptr) =>
            match (out_doc.getNode node_ptr.level node_ptr.index).value with
            | .cls _ node_start node_count =>
                match out_doc.scan_for_multi_for_expand (node_ptr.level + 1)
                    node_start node_count id_start id_count
                    in_doc.multi_ids with
                | .ok found_node => .ok (none, found_node)
                | .error message =>
                    .error ⟨out_doc.token_id_to_span token_id, message⟩
            | _ =>
                .error ⟨in_doc.token_id_to_span token_id,
                  .propertyNotClass base rid⟩
        | some (.fullPtr full_ptr) =>
            let other_doc := expanded.getD full_ptr.file_id.to_index {}
            match (other_doc.getNode full_ptr.local_ptr.level
                full_ptr.local_ptr.index).value with
            | .cls _ node_start node_count =>
                match other_doc.scan_for_multi_for_expand
                    (full_ptr.local_ptr.level + 1) node_start node_count
                    id_start id_count in_doc.multi_ids with
                | .ok found_node => .ok (some full_ptr.file_id, found_node)
                | .error message =>
                    .error ⟨out_doc.token_id_to_span token_id, message⟩
            | _ =>
                .error ⟨in_doc.token_id_to_span token_id,
                  .propertyNotClass base rid⟩
        | none =>
            .error ⟨in_doc.token_id_to_span token_id,
              .cannotFindItemOnScopeOf base rid⟩
  | .single id =>
      if ¬ is_baseclass (.single id) then
        match scope_stack.find_item id with
        | some (.localPtr local_ptr) => .ok (none, local_ptr)
        | some (.fullPtr full_ptr) =>
            .ok (some full_ptr.file_id, full_ptr.local_ptr)
        | none =>
            .error ⟨in_doc.token_id_to_span token_id,
              .cannotFindItemOnScope rid⟩
      else
        .error ⟨in_doc.token_id_to_span token_id, .cannotFindItemOnScope rid⟩
  | _ =>
      .error ⟨in_doc.token_id_to_span token_id, .cannotFindItemOnScope rid⟩

/-- Rewrite the already-written node at `(level, index)` to the resolved
pointer, guarded on its value still being an identifier-reference
(`if let LiveValue::IdPack(id) = &mut written_node.value`). -/
def rewriteIdPackAt (d : LiveDocument) (level index : Nat) (new_id : IdPack) :
    LiveDocument :=
  let n := d.getNode level index
  match n.value with
  | .idPack _ => d.setNode level index { n with value := .idPack new_id }
  | _ => d

/-- Rewrite the already-written call node's target at `(level, index)`,
guarded on its value still being a call. -/
def rewriteCallTargetAt (d : LiveDocument) (level index : Nat)
    (new_id : IdPack) : LiveDocument :=
  let n := d.getNode level index
  match n.value with
  | .call _ ns nc => d.setNode level index { n with value := .call new_id ns nc }
  | _ => d

/-- The wildcard (`IdUnpack::Empty`) arm of the `Use` walker: bind every
single-id top-level node of the imported document as a full pointer in the
frame at `out_level`. -/
def pushWildcard (s : ScopeStack) (out_level : Nat) (fid : FileId)
    (nodes : List LiveNode) : ScopeStack :=
  nodes.enum.foldl
    (fun acc p =>
      match p.2.id_pack with
      | .single id => acc.pushAt out_level ⟨id, .fullPtr ⟨fid, ⟨0, p.1⟩⟩⟩
      | _ => acc)
    s

/-- Result of one window scan of the multi-segment `Use` walker. -/
inductive UseScanRes where
  | pushLast (i : Nat) : UseScanRes
  | descend (node_start node_count : Nat) : UseScanRes
  | stopNone : UseScanRes
deriving DecidableEq, Repr

/-- One window scan of the multi-segment `Use` walker (`for i in
0..node_count` with its two id tests and break semantics): at the last
segment a match is bound; at an intermediate segment a match must be a
class to descend, anything else breaks the scan. -/
def useMultiScan (lvl_nodes : List LiveNode) (is_last : Bool) (seg : LId) :
    Nat → Nat → UseScanRes
  | _, 0 => .stopNone
  | start, c + 1 =>
      let other_node := lvl_nodes.getD start default
      if is_last ∧ other_node.id_pack = IdPack.single seg then
        .pushLast start
      else if other_node.id_pack = IdPack.single seg then
        match other_node.value with
        | .cls _ ns nc => .descend ns nc
        | _ => .stopNone
      else
        useMultiScan lvl_nodes is_last seg (start + 1) c

/-- The empty-trailing-segment arm of the multi-segment `Use` walker: the
source pushes a binding per window entry only when the *use node's* id pack
unpacks to a single id — which a multi pack never does, so this arm binds
nothing; it is transcribed faithfully. -/
def pushWindowIfSingle (st : WalkSt) (out_level : Nat) (fid : FileId)
    (pack : IdPack) (level node_start node_count : Nat) : WalkSt :=
  match pack with
  | .single id =>
      { st with
        scope_stack := (List.range node_count).foldl
          (fun acc i =>
            acc.pushAt out_level
              ⟨id, .fullPtr ⟨fid, ⟨level, i + node_start⟩⟩⟩)
          st.scope_stack }
  | _ => st

/-- The `for level in 0..count` loop of the multi-segment `Use` walker,
`rem = count - level` remaining levels.  An empty segment anywhere but last
is the source's `panic!()`; a failed window scan records a "Use path not
found" error and the loop continues with the unchanged window. -/
def useMultiGo (in_doc other_doc : LiveDocument) (use_node : LiveNode)
    (file_id : FileId) (out_level index count : Nat) :
    Nat → Nat → Nat → Nat → WalkSt → Outcome WalkSt
  | _, 0, _, _, st => .ok st
  | level, r + 1, node_start, node_count, st =>
      let id := in_doc.multi_ids.getD (level + index) idEmpty
      if id = idEmpty then
        if level ≠ count - 1 then
          .panicked
        else
          useMultiGo in_doc other_doc use_node file_id out_level index count
            (level + 1) r node_start node_count
            (pushWindowIfSingle st out_level file_id use_node.id_pack level
              node_start node_count)
      else
        match useMultiScan (other_doc.nodes.getD level []) (level = count - 1)
            id node_start node_count with
        | .pushLast i =>
            useMultiGo in_doc other_doc use_node file_id out_level index count
              (level + 1) r node_start node_count
              { st with
                scope_stack := st.scope_stack.pushAt out_level
                  ⟨id, .fullPtr ⟨file_id, ⟨level, i⟩⟩⟩ }
        | .descend ns nc =>
            useMultiGo in_doc other_doc use_node file_id out_level index count
              (level + 1) r ns nc st
        | .stopNone =>
            useMultiGo in_doc other_doc use_node file_id out_level index count
              (level + 1) r node_start node_count
              { st with
                errors := st.errors ++
                  [⟨in_doc.token_id_to_span use_node.token_id,
                    .usePathNotFound use_node.id_pack⟩] }

/-- The recursive `Self`-clone loop of the `Class` walker (`for i in
out_start..len { copy_recur(None, out_doc, node.id_pack, 0, out_level,
shifted + 1, i) }`), `c` iterations remaining. -/
def copySelfLoop (fuel : Nat) (skip_id : IdPack)
    (out_level shifted_next : Nat) : Nat → Nat → LiveDocument →
    Option LiveDocument
  | _, 0, od => some od
  | i, c + 1, od =>
      match copy_recur fuel none od skip_id 0 out_level shifted_next i with
      | none => none
      | some (_, od2) => copySelfLoop fuel skip_id out_level shifted_next
          (i + 1) c od2

/-- The shifted nesting level for a multi-segment declaration id:
declared level + segment count − 1. -/
def shiftedOutLevel (pack : IdPack) (out_level : Nat) : Nat :=
  if pack.is_multi then out_level + (pack.unwrap_multi.2 - 1) else out_level

/-- A pending walker activation: `node` is a `walk_node` call, `classTail`
the tail of its `Class` arm after base resolution and structural copy, and
`children` one of the `for i in 0..node_count` child-walk loops with
`count` iterations remaining. -/
inductive WalkCall where
  | node (st : WalkSt)
      (in_level out_level in_node_index out_start out_count : Nat) : WalkCall
  | classTail (node : LiveNode) (base : IdPack)
      (node_start node_count in_level out_level out_start out_count shifted
        new_out_start : Nat)
      (copy_result : CopyRecurResult) (value_ptr : Option LocalNodePtr)
      (other_file_id : Option FileId) (st : WalkSt) : WalkCall
  | children (st : WalkSt)
      (in_level out_level node_start count out_start out_count : Nat) :
      WalkCall

/-- `walk_node` (nested fn of `expand_all_documents`) together with the
tail of its `Class` arm and its child-walk loops: expand the raw node at
`(in_level, in_node_index)` into the output document at `out_level`,
merging into the window `[out_start, out_start + out_count)`.  Errors are
accumulated and the walk continues; the `unwrap()` of an unregistered
use-import and the `panic!()` of a misplaced empty path segment surface as
`.panicked`; `fuel` bounds the number of activations.  The `classTail` arm
rejects override fields on a non-class base (the error `return` leaves the
pushed scope frame in place, as the source does), otherwise walks the
declaration's own fields merged onto the copied span, pops the class frame
and writes the class node. -/
def walkF (ctx : WalkCtx) : Nat → WalkCall → Outcome WalkSt
  | 0, _ => .nofuel
  | f + 1, .node st in_level out_level in_node_index out_start out_count =>
    let node := ctx.in_doc.getNode in_level in_node_index
    match node.value with
    | .str _ _ =>
        .ok (write_or_add_walk st out_level out_start out_count ctx.in_doc
          node)
    | .boolV _ =>
        .ok (write_or_add_walk st out_level out_start out_count ctx.in_doc
          node)
    | .intV _ =>
        .ok (write_or_add_walk st out_level out_start out_count ctx.in_doc
          node)
    | .floatV _ =>
        .ok (write_or_add_walk st out_level out_start out_count ctx.in_doc
          node)
    | .colorV _ =>
        .ok (write_or_add_walk st out_level out_start out_count ctx.in_doc
          node)
    | .vec2V _ =>
        .ok (write_or_add_walk st out_level out_start out_count ctx.in_doc
          node)
    | .vec3V _ =>
        .ok (write_or_add_walk st out_level out_start out_count ctx.in_doc
          node)
    | .idPack id_value =>
        let out_index := st.out_doc.get_level_len out_level
        let st1 := write_or_add_walk st out_level out_start out_count
          ctx.in_doc node
        if id_value ≠ idPackSelf ∧ ¬ is_baseclass id_value then
          match resolve_id id_value ctx.expanded node.token_id
              st1.scope_stack ctx.in_doc st1.out_doc out_level out_start with
          | .ok found =>
              let new_id := IdPack.node_ptr (found.1.getD ctx.in_file_id)
                found.2
              .ok { st1 with
                    out_doc := rewriteIdPackAt st1.out_doc out_level
                      out_index new_id }
          | .error err => .ok { st1 with errors := st1.errors ++ [err] }
        else
          .ok st1
    | .call target node_start node_count =>
        let new_node_start := st.out_doc.get_level_len (out_level + 1)
        match walkF ctx f (.children st (in_level + 1) (out_level + 1)
            node_start node_count out_start 0) with
        | .ok st1 =>
            let new_node : LiveNode := ⟨node.token_id, node.id_pack,
              .call target new_node_start node_count⟩
            let out_index := st1.out_doc.get_level_len out_level
            let st2 := write_or_add_walk st1 out_level out_start out_count
              ctx.in_doc new_node
            if target ≠ idPackSelf ∧ ¬ is_baseclass target then
              match resolve_id target ctx.expanded node.token_id
                  st2.scope_stack ctx.in_doc st2.out_doc out_level
                  out_start with
              | .ok (none, found_node) =>
                  match (st2.out_doc.getNode found_node.level
                      found_node.index).value with
                  | .call _ _ _ =>
                      .ok { st2 with
                            out_doc := rewriteCallTargetAt st2.out_doc
                              out_level out_index
                              (IdPack.node_ptr ctx.in_file_id found_node) }
                  | _ =>
                      .ok { st2 with
                            errors := st2.errors ++
                              [⟨ctx.in_doc.token_id_to_span node.token_id,
                                .targetNotCall node.id_pack⟩] }
              | .ok (some found_file_id, found_node) =>
                  match ((ctx.expanded.getD found_file_id.to_index
                      {}).getNode found_node.level found_node.index).value with
                  | .call _ _ _ =>
                      .ok { st2 with
                            out_doc := rewriteCallTargetAt st2.out_doc
                              out_level out_index
                              (IdPack.node_ptr found_file_id found_node) }
                  | _ =>
                      .ok { st2 with
                            errors := st2.errors ++
                              [⟨ctx.in_doc.token_id_to_span node.token_id,
                                .targetNotCall node.id_pack⟩] }
              | .error err => .ok { st2 with errors := st2.errors ++ [err] }
            else
              .ok st2
        | other => other
    | .arrayV node_start node_count =>
        let shifted := shiftedOutLevel node.id_pack out_level
        let new_node_start := st.out_doc.get_level_len (shifted + 1)
        match walkF ctx f (.children st (in_level + 1) (shifted + 1)
            node_start node_count out_start 0) with
        | .ok st1 =>
            .ok (write_or_add_walk st1 out_level out_start out_count
              ctx.in_doc ⟨node.token_id, node.id_pack,
                .arrayV new_node_start node_count⟩)
        | other => other
    | .objectV node_start node_count =>
        let shifted := shiftedOutLevel node.id_pack out_level
        let new_node_start := st.out_doc.get_level_len (shifted + 1)
        match walkF ctx f (.children st (in_level + 1) (shifted + 1)
            node_start node_count out_start 0) with
        | .ok st1 =>
            .ok (write_or_add_walk st1 out_level out_start out_count
              ctx.in_doc ⟨node.token_id, node.id_pack,
                .objectV new_node_start node_count⟩)
        | other => other
    | .fnV token_start token_count _ _ =>
        let new_scope_start := st.out_doc.scopes.length
        let od := { st.out_doc with
          scopes := st.out_doc.scopes ++ st.scope_stack.stack.flatten }
        .ok (write_or_add_walk { st with out_doc := od } out_level out_start
          out_count ctx.in_doc ⟨node.token_id, node.id_pack,
            .fnV token_start token_count new_scope_start
              (od.scopes.length - new_scope_start)⟩)
    | .varDef token_start token_count _ _ =>
        let new_scope_start := st.out_doc.scopes.length
        let od := { st.out_doc with
          scopes := st.out_doc.scopes ++ st.scope_stack.stack.flatten }
        .ok (write_or_add_walk { st with out_doc := od } out_level out_start
          out_count ctx.in_doc ⟨node.token_id, node.id_pack,
            .varDef token_start token_count new_scope_start
              (od.scopes.length - new_scope_start)⟩)
    | .resourceRef target =>
        .ok (write_or_add_walk st out_level out_start out_count ctx.in_doc
          ⟨node.token_id, node.id_pack, .resourceRef target⟩)
    | .useImport cm0 =>
        let crate_module := ctx.in_doc.fetch_crate_module cm0 ctx.in_crate
        match alistGet ctx.crate_module_to_file_id crate_module with
        | none => .panicked
        | some file_id =>
            let other_doc := ctx.expanded.getD file_id.to_index {}
            match node.id_pack with
            | .empty =>
                .ok { st with
                      scope_stack := pushWildcard st.scope_stack out_level
                        file_id (other_doc.nodes.getD 0 []) }
            | .single id =>
                match (other_doc.nodes.getD 0 []).findIdx?
                    (fun n => n.id_pack = node.id_pack) with
                | some i =>
                    .ok { st with
                          scope_stack := st.scope_stack.pushAt out_level
                            ⟨id, .fullPtr ⟨file_id, ⟨0, i⟩⟩⟩ }
                | none =>
                    .ok { st with
                          errors := st.errors ++
                            [⟨ctx.in_doc.token_id_to_span node.token_id,
                              .cannotFindImport node.id_pack⟩] }
            | .multi index count =>
                useMultiGo ctx.in_doc other_doc node file_id out_level index
                  count 0 count 0 (other_doc.get_level_len 0) st
            | .fullPtr _ =>
                .ok { st with
                      errors := st.errors ++
                        [⟨ctx.in_doc.token_id_to_span node.token_id,
                          .nodeTypeInvalid node.id_pack⟩] }
    | .cls base node_start node_count =>
        let st0 : WalkSt := { st with
          scope_stack := ⟨st.scope_stack.stack ++ [[]]⟩ }
        let shifted := shiftedOutLevel node.id_pack out_level
        let new_out_start := st0.out_doc.get_level_len (shifted + 1)
        if base = idPackSelf then
          let stop := st0.out_doc.get_level_len out_level
          match copySelfLoop f node.id_pack out_level (shifted + 1) out_start
              (stop - out_start) st0.out_doc with
          | none => .nofuel
          | some od =>
              walkF ctx f (.classTail node base node_start node_count
                in_level out_level out_start out_count shifted new_out_start
                (.isClass base) none none { st0 with out_doc := od })
        else if ¬ is_baseclass base then
          match resolve_id base ctx.expanded node.token_id st0.scope_stack
              ctx.in_doc st0.out_doc out_level out_start with
          | .error err => .ok { st0 with errors := st0.errors ++ [err] }
          | .ok (none, found_node) =>
              match copy_recur f none st0.out_doc node.id_pack
                  found_node.level found_node.level shifted
                  found_node.index with
              | none => .nofuel
              | some (cr, od) =>
                  walkF ctx f (.classTail node base node_start node_count
                    in_level out_level out_start out_count shifted
                    new_out_start cr (some found_node) none
                    { st0 with out_doc := od })
          | .ok (some found_file_id, found_node) =>
              let other_doc := ctx.expanded.getD found_file_id.to_index {}
              match copy_recur f (some (other_doc, found_file_id)) st0.out_doc
                  node.id_pack found_node.level found_node.level shifted
                  found_node.index with
              | none => .nofuel
              | some (cr, od) =>
                  walkF ctx f (.classTail node base node_start node_count
                    in_level out_level out_start out_count shifted
                    new_out_start cr (some found_node) (some found_file_id)
                    { st0 with out_doc := od })
        else
          walkF ctx f (.classTail node base node_start node_count in_level
            out_level out_start out_count shifted new_out_start
            (.isClass base) none none st0)
  | f + 1, .classTail node base node_start node_count in_level out_level
      out_start out_count shifted new_out_start copy_result value_ptr
      other_file_id st1 =>
    (match copy_result with
  | .isClass _ =>
      let new_class_id :=
        match other_file_id, value_ptr with
        | some ofid, some vp => IdPack.node_ptr ofid vp
        | some _, none => base
        | none, some vp => IdPack.node_ptr ctx.in_file_id vp
        | none, none => base
      let new_out_count := st1.out_doc.get_level_len (shifted + 1) -
        new_out_start
      match walkF ctx f (.children st1 (in_level + 1) (shifted + 1)
          node_start node_count new_out_start new_out_count) with
      | .ok st2 =>
          let new_out_count2 := st2.out_doc.get_level_len (shifted + 1) -
            new_out_start
          let new_node : LiveNode := ⟨node.token_id, node.id_pack,
            .cls new_class_id new_out_start new_out_count2⟩
          let st3 : WalkSt := { st2 with
            scope_stack := ⟨st2.scope_stack.stack.dropLast⟩ }
          .ok (write_or_add_walk st3 out_level out_start out_count ctx.in_doc
            new_node)
      | other => other
  | _ =>
      if node_count > 0 then
        .ok { st1 with
              errors := st1.errors ++
                [⟨ctx.in_doc.token_id_to_span node.token_id,
                  .cannotOverrideNonClass base⟩] }
      else
        .ok { st1 with scope_stack := ⟨st1.scope_stack.stack.dropLast⟩ })
  | _ + 1, .children st _ _ _ 0 _ _ => .ok st
  | f + 1, .children st in_level out_level node_start (c + 1) out_start
      out_count =>
      (match walkF ctx f (.node st in_level out_level node_start out_start
          out_count) with
      | .ok st2 =>
          walkF ctx f (.children st2 in_level out_level (node_start + 1) c
            out_start out_count)
      | other => other)

/-- `walk_node` proper: run a single walker activation. -/
def walk_node (fuel : Nat) (ctx : WalkCtx) (st : WalkSt)
    (in_level out_level in_node_index out_start out_count : Nat) :
    Outcome WalkSt :=
  walkF ctx fuel (.node st in_level out_level in_node_index out_start
    out_count)

/-- Modelled from the spec: `LiveDocument::restart_from` — reinitialize the
swapped-out expanded document from the raw document's interning tables (so
uncopied same-file spans stay valid) with empty node levels and captures;
the dirty flag is untouched here (the caller clears it after the walk). -/
def LiveDocument.restart_from (out : LiveDocument) (raw : LiveDocument) :
    LiveDocument :=
  { nodes := [], strings := raw.strings, tokens := raw.tokens, scopes := [],
    multi_ids := raw.multi_ids, recompile := out.recompile }

/-- `LiveRegistry::token_id_to_span` (delegates to the owning file's
document). -/
def LiveRegistry.token_id_to_span (_reg : LiveRegistry) (t : TokenId) :
    Span :=
  ⟨t.file_id, t.token_id⟩

/-- The `for i in 0..len` top-level walk of one dirty document (`c` nodes
remaining, next index `i`). -/
def walkTopNodes (fuel : Nat) (ctx : WalkCtx) : Nat → Nat → WalkSt →
    Outcome WalkSt
  | 0, _, st => .ok st
  | c + 1, i, st =>
      match walk_node fuel ctx st 0 0 i 0 0 with
      | .ok st2 => walkTopNodes fuel ctx c (i + 1) st2
      | other => other

/-- The `for (crate_module, token_id) in &self.dep_order` loop of
`expand_all_documents`, threading the evolving expanded-document store and
error list: a crate-module with no registered file records a
missing-dependency error and is skipped; a clean document is skipped; a
dirty document is swapped out, reinitialized, walked, its dirty flag
cleared, and swapped back. -/
def expandGo (reg : LiveRegistry) (fuel : Nat) :
    List (CrateModule × TokenId) → List LiveDocument → List LiveError →
    Outcome (List LiveDocument × List LiveError)
  | [], exp, errs => .ok (exp, errs)
  | (cm, tok) :: rest, exp, errs =>
      match alistGet reg.crate_module_to_file_id cm with
      | none =>
          expandGo reg fuel rest exp
            (errs ++ [⟨reg.token_id_to_span tok, .cannotFindDependency cm⟩])
      | some fid =>
          if ¬ (exp.getD fid.to_index {}).recompile then
            expandGo reg fuel rest exp errs
          else
            let live_file := reg.live_files.getD fid.to_index default
            let in_doc := live_file.document
            let out_doc := (exp.getD fid.to_index {}).restart_from in_doc
            let ctx : WalkCtx :=
              ⟨exp, reg.crate_module_to_file_id, cm.crateId, fid, in_doc⟩
            match walkTopNodes fuel ctx (in_doc.nodes.getD 0 []).length 0
                ⟨errs, ⟨[[]]⟩, out_doc⟩ with
            | .ok st =>
                expandGo reg fuel rest
                  (exp.set fid.to_index { st.out_doc with recompile := false })
                  st.errors
            | .panicked => .panicked
            | .nofuel => .nofuel

/-- `LiveRegistry::expand_all_documents`: run the incremental expansion pass
over the processing order, appending errors (never throwing). -/
def expand_all_documents (fuel : Nat) (reg : LiveRegistry)
    (errors : List LiveError) : Outcome (LiveRegistry × List LiveError) :=
  match expandGo reg fuel reg.dep_order reg.expanded errors with
  | .ok (exp, errs) => .ok ({ reg with expanded := exp }, errs)
  | .panicked => .panicked
  | .nofuel => .nofuel

/-- Instrumented clone of `expandGo` that additionally logs the file
identities it rebuilds (processes through the dirty branch), in order; the
registry and error components agree with `expandGo`
(`expandGoLog_agrees`). -/
def expandGoLog (reg : LiveRegistry) (fuel : Nat) :
    List (CrateModule × TokenId) → List LiveDocument → List LiveError →
    List FileId → Outcome (List LiveDocument × List LiveError × List FileId)
  | [], exp, errs, log => .ok (exp, errs, log)
  | (cm, tok) :: rest, exp, errs, log =>
      match alistGet reg.crate_module_to_file_id cm with
      | none =>
          expandGoLog reg fuel rest exp
            (errs ++ [⟨reg.token_id_to_span tok, .cannotFindDependency cm⟩])
            log
      | some fid =>
          if ¬ (exp.getD fid.to_index {}).recompile then
            expandGoLog reg fuel rest exp errs log
          else
            let live_file := reg.live_files.getD fid.to_index default
            let in_doc := live_file.document
            let out_doc := (exp.getD fid.to_index {}).restart_from in_doc
            let ctx : WalkCtx :=
              ⟨exp, reg.crate_module_to_file_id, cm.crateId, fid, in_doc⟩
            match walkTopNodes fuel ctx (in_doc.nodes.getD 0 []).length 0
                ⟨errs, ⟨[[]]⟩, out_doc⟩ with
            | .ok st =>
                expandGoLog reg fuel rest
                  (exp.set fid.to_index { st.out_doc with recompile := false })
                  st.errors (log ++ [fid])
            | .panicked => .panicked
            | .nofuel => .nofuel

/-- `LiveRegistry::resolve_ptr` (node component; dereference into the
expanded store). -/
def LiveRegistry.resolve_node (reg : LiveRegistry) (fp : FullNodePtr) :
    LiveNode :=
  (reg.expanded.getD fp.file_id.to_index {}).resolve_ptr fp.local_ptr

/-- The `while let IdUnpack::FullNodePtr(..)` base-class chase of
`find_component_origin`: follow resolved class pointers, tracking the last
pointed-to node's token, until a non-pointer id is reached; a pointer to a
non-class node aborts with `none` (the source's `return None`), as does an
exhausted depth budget. -/
def chaseBase (reg : LiveRegistry) : Nat → IdPack → TokenId →
    Option (IdPack × TokenId)
  | 0, _, _ => none
  | f + 1, .fullPtr full_ptr, _ =>
      (match (reg.resolve_node full_ptr).value with
        | .cls base _ _ =>
            chaseBase reg f base (reg.resolve_node full_ptr).token_id
        | _ => none)
  | _ + 1, .empty, token_id_iter => some (.empty, token_id_iter)
  | _ + 1, .single i, token_id_iter => some (.single i, token_id_iter)
  | _ + 1, .multi i c, token_id_iter => some (.multi i c, token_id_iter)

/-- `LiveRegistry::find_component_origin`: locate the named node in the
module's expanded document, require it to be a class, chase its base-class
chain to the ultimate non-aliased ancestor, require that ancestor to be the
reserved `Component` id, and return the owning crate-module, the origin
identifier (the token the final class was declared with, which must be an
identifier token) and the full pointer of the named node.  The source
indexes the token table at `token_id - 2`; an out-of-range index (a Rust
panic) is modelled as `none`. -/
def find_component_origin (fuel : Nat) (reg : LiveRegistry)
    (crate_id module_id : LId) (ids : List LId) :
    Option (CrateModule × LId × FullNodePtr) :=
  match alistGet reg.crate_module_to_file_id ⟨crate_id, module_id⟩ with
  | none => none
  | some file_id =>
      let exp := reg.expanded.getD file_id.to_index {}
      match exp.scan_for_multi ids with
      | none => none
      | some ptr =>
          let node := exp.getNode ptr.level ptr.index
          match node.value with
          | .cls base _ _ =>
              match chaseBase reg fuel base node.token_id with
              | none => none
              | some (class_iter, token_id_iter) =>
                  let exp2 := reg.expanded.getD token_id_iter.file_id.to_index
                    {}
                  let file := reg.live_files.getD
                    token_id_iter.file_id.to_index default
                  if class_iter ≠ IdPack.single idComponent then
                    none
                  else
                    match exp2.tokens.get? (token_id_iter.token_id - 2) with
                    | some (.ident id) =>
                        some (file.crate_module, id, ⟨file_id, ptr⟩)
                    | _ => none
          | _ => none

/-!  Theorems.  Each claim of the specification is settled below; supporting
lemmas carry the shared reasoning. -/

/-- Stated from the spec's words, for comparison with the source's
`ScopeStack::find_item`: flatten the frames innermost-first with each frame
last-inserted-first, and take the first binding of the name. -/
def find_item_spec (s : ScopeStack) (id : LId) : Option LiveScopeTarget :=
  ((s.stack.reverse.map List.reverse).flatten.find?
    (fun item => item.id = id)).map (·.target)

def strDocIn : LiveDocument :=
  { nodes := [[⟨⟨⟨0⟩, 3⟩, .single 20, .str 1 2⟩]], strings := [7, 8, 9] }

def strDocOut : LiveDocument := { strings := [5] }

def strDocSame : LiveDocument :=
  { nodes := [[⟨⟨⟨0⟩, 3⟩, .single 20, .str 0 2⟩]], strings := [5, 6, 7] }

/-- The crate-modules of the C1 dependency cycle: `cycleA` uses `cycleB`
and `cycleB` uses `cycleA`. -/
def cycleA : CrateModule := ⟨30, 31⟩

def cycleB : CrateModule := ⟨32, 33⟩

def cycleGraph : List (CrateModule × List CrateModule) :=
  [(cycleA, [cycleB]), (cycleB, [cycleA])]

/-- A registry holding the two-module dependency cycle, both registered. -/
def cycleReg : LiveRegistry :=
  { crate_module_to_file_id := [(cycleA, ⟨0⟩), (cycleB, ⟨1⟩)],
    dep_order := [(cycleA, default), (cycleB, default)],
    dep_graph := cycleGraph,
    expanded := [{}, {}] }

/-- The base-class chain starting at `start`, followed link by link through
resolved class pointers, ends at the non-pointer id `q`. -/
inductive ChainEnds (reg : LiveRegistry) : IdPack → IdPack → Prop where
  | done (p : IdPack) (hnp : ∀ fp, p ≠ .fullPtr fp) : ChainEnds reg p p
  | step (fp : FullNodePtr) (base q : IdPack) (ns nc : Nat)
      (hnode : (reg.resolve_node fp).value = .cls base ns nc)
      (htail : ChainEnds reg base q) : ChainEnds reg (.fullPtr fp) q

/-- The base-class chain starting at `start` passes through a pointer whose
node is not a class. -/
inductive ChainBlocked (reg : LiveRegistry) : IdPack → Prop where
  | here (fp : FullNodePtr)
      (hnot : ∀ base ns nc, (reg.resolve_node fp).value ≠ .cls base ns nc) :
      ChainBlocked reg (.fullPtr fp)
  | step (fp : FullNodePtr) (base : IdPack) (ns nc : Nat)
      (hnode : (reg.resolve_node fp).value = .cls base ns nc)
      (htail : ChainBlocked reg base) : ChainBlocked reg (.fullPtr fp)

/-- A module whose class `10` roots directly at `Component`; its declaring
token (index 2, looked up at offset `2 - 2`) is the identifier token `40`. -/
def compDoc : LiveDocument :=
  { nodes := [[⟨⟨⟨0⟩, 2⟩, .single 10, .cls (.single idComponent) 0 0⟩]],
    tokens := [.ident 40], recompile := false }

def regComp : LiveRegistry :=
  { crate_module_to_file_id := [(⟨20, 21⟩, ⟨0⟩)],
    live_files := [⟨⟨20, 21⟩, "f", "s", {}⟩],
    expanded := [compDoc] }

/-- A module whose class `10` roots at `Enum` instead. -/
def enumDoc : LiveDocument :=
  { nodes := [[⟨⟨⟨0⟩, 2⟩, .single 10, .cls (.single idEnum) 0 0⟩]],
    tokens := [.ident 40], recompile := false }

def regEnum : LiveRegistry :=
  { crate_module_to_file_id := [(⟨20, 21⟩, ⟨0⟩)],
    live_files := [⟨⟨20, 21⟩, "f", "s", {}⟩],
    expanded := [enumDoc] }

/-- A module whose class `10` has a base pointer leading to a non-class
(int) node. -/
def blockedDoc : LiveDocument :=
  { nodes := [[⟨⟨⟨0⟩, 2⟩, .single 10, .cls (.fullPtr ⟨⟨0⟩, ⟨0, 1⟩⟩) 0 0⟩,
               ⟨⟨⟨0⟩, 4⟩, .single 11, .intV 7⟩]],
    tokens := [.ident 40], recompile := false }

def regBlocked : LiveRegistry :=
  { crate_module_to_file_id := [(⟨20, 21⟩, ⟨0⟩)],
    live_files := [⟨⟨20, 21⟩, "f", "s", {}⟩],
    expanded := [blockedDoc] }

/-- The raw document of a module (crate 20, module 21) whose only node is a
use-import of the never-registered crate-module `(11, 12)`. -/
def missingDepDoc : LiveDocument :=
  { nodes := [[⟨⟨⟨0⟩, 5⟩, .single 10, .useImport ⟨11, 12⟩⟩]] }

/-- The registry produced by registering `missingDepDoc` (computed by
`parse_live_file`; `expand_missing_dependency_panics` checks this). -/
def regMissingDep : LiveRegistry :=
  match parse_live_file 9 {} (.parsed missingDepDoc) "main.live" 20 21
      "srctext" with
  | .ok p => p.1
  | _ => default

/-- The invariant of the use-import scan of `parse_live_file`: the importer
is in the processing order and every collected import (other than the
importer itself) precedes it. -/
def ImportsPrecede (own : CrateModule) (s : List CrateModule)
    (order : List (CrateModule × TokenId)) : Prop :=
  (∃ po, depOrderPos order own = some po) ∧
  ∀ u ∈ s, u ≠ own → ∃ pu po, depOrderPos order u = some pu ∧
    depOrderPos order own = some po ∧ pu < po

/-- Every expanded-document slot is reachable from some processing-order
entry (the data-model invariant that each file identity belongs to a
registered crate-module; violated only by registering one crate-module
under two different file names, which breaks the spec's 1:1 key/file
mapping). -/
def CoveredReg (reg : LiveRegistry) : Prop :=
  ∀ i, i < reg.expanded.length → ∃ cm tok fid,
    (cm, tok) ∈ reg.dep_order ∧
    alistGet reg.crate_module_to_file_id cm = some fid ∧ fid.to_index = i

/-- Every registered file identity indexes into the expanded store. -/
def RangedReg (reg : LiveRegistry) : Prop :=
  ∀ cm fid, alistGet reg.crate_module_to_file_id cm = some fid →
    fid.to_index < reg.expanded.length

/-- A one-node document with no use imports, for exercising a full
clean expansion pass. -/
def soloDoc : LiveDocument :=
  { nodes := [[⟨⟨⟨0⟩, 0⟩, .single 10, .intV 5⟩]] }

/-- The registry produced by registering `soloDoc` as crate-module
(20, 21). -/
def regSolo : LiveRegistry :=
  match parse_live_file 9 {} (.parsed soloDoc) "solo.live" 20 21 "src" with
  | .ok p => p.1
  | _ => default

/-- The registry after one successful expansion pass over `regSolo`. -/
def regSolo1 : LiveRegistry :=
  match expand_all_documents 99 regSolo [] with
  | .ok p => p.1
  | _ => default

/-- The direct importers of `cm` read off a dependency graph (the list
`LiveRegistry.directImporters` computes from `dep_graph`). -/
def importersOf (g : List (CrateModule × List CrateModule))
    (cm : CrateModule) : List CrateModule :=
  (g.filter (fun p => cm ∈ p.2)).map (·.1)

/-- `b` imports `a` directly or transitively in the dependency graph `g`
(i.e. `b` is reachable from `a` along reverse dependency edges). -/
inductive ImporterOf (g : List (CrateModule × List CrateModule)) :
    CrateModule → CrateModule → Prop
  | direct {a b : CrateModule} :
      b ∈ importersOf g a → ImporterOf g a b
  | step {a c b : CrateModule} :
      c ∈ importersOf g a → ImporterOf g c b → ImporterOf g a b

/-- Document registered as crate-module (20, 21): one plain value. -/
def docA5 : LiveDocument :=
  { nodes := [[⟨⟨⟨0⟩, 0⟩, .single 10, .intV 5⟩]] }

/-- Document registered as crate-module (30, 31): imports (20, 21). -/
def docB5 : LiveDocument :=
  { nodes := [[⟨⟨⟨0⟩, 0⟩, .single 10, .useImport ⟨20, 21⟩⟩]] }

/-- Document registered as crate-module (40, 41): imports (20, 21). -/
def docC5 : LiveDocument :=
  { nodes := [[⟨⟨⟨0⟩, 0⟩, .single 10, .useImport ⟨20, 21⟩⟩]] }

/-- One `parse_live_file` registration step (discarding the returned
file identity; `default` is unreachable on these inputs). -/
def pstep (reg : LiveRegistry) (d : LiveDocument) (f : String)
    (c m : LId) : LiveRegistry :=
  match parse_live_file 9 reg (.parsed d) f c m "s" with
  | .ok p => p.1
  | _ => default

/-- Registry holding (20, 21), (30, 31), (40, 41) after one full
expansion pass: every expanded document is clean. -/
def regClean5 : LiveRegistry :=
  match expand_all_documents 99
      (pstep (pstep (pstep {} docA5 "a.live" 20 21) docB5 "b.live" 30 31)
        docC5 "c.live" 40 41) [] with
  | .ok p => p.1
  | _ => default

/-- `regClean5` after re-registering only (20, 21)'s source. -/
def regPost5 : LiveRegistry :=
  pstep regClean5 docA5 "a.live" 20 21

/-- The expanded store produced by the logged pass over `regPost5`. -/
def regPost5Exp : List LiveDocument :=
  match expandGoLog regPost5 99 regPost5.dep_order regPost5.expanded
      [] [] with
  | .ok p => p.1
  | _ => []

/-- Raw document with a value node (id 11), a class node overriding one
field on base 11, and a zero-field alias of base 11. -/
def doc7 : LiveDocument :=
  { nodes := [[⟨⟨⟨0⟩, 0⟩, .single 11, .intV 5⟩,
               ⟨⟨⟨0⟩, 1⟩, .single 12, .cls (.single 11) 0 1⟩,
               ⟨⟨⟨0⟩, 2⟩, .single 13, .cls (.single 11) 0 0⟩],
              [⟨⟨⟨0⟩, 3⟩, .single 14, .intV 7⟩]] }

/-- Walk context over `doc7` alone. -/
def ctx7 : WalkCtx :=
  ⟨[], [], 20, ⟨0⟩, doc7⟩

/-- Walker state after node 0: id 11 is a local scope binding to the
already-emitted non-class value at (0, 0). -/
def st7 : WalkSt :=
  ⟨[], ⟨[[⟨11, .localPtr ⟨0, 0⟩⟩]]⟩,
   { nodes := [[⟨⟨⟨0⟩, 0⟩, .single 11, .intV 5⟩]] }⟩

/-- Output document after copying the base value for the overriding
class node (id 12). -/
def od7a : LiveDocument :=
  match copy_recur 8 none st7.out_doc (.single 12) 0 0 0 0 with
  | some p => p.2
  | none => {}

/-- Output document after copying the base value for the alias node
(id 13). -/
def od7b : LiveDocument :=
  match copy_recur 8 none st7.out_doc (.single 13) 0 0 0 0 with
  | some p => p.2
  | none => {}

lemma findSome?_guardTarget (id : LId) (xs : List LiveScopeItem) :
    (xs.findSome? fun item =>
      if item.id = id then some item.target else none) =
    (xs.find? (fun item => item.id = id)).map (·.target) := by
  induction xs with
  | nil => rfl
  | cons x xs ih =>
    by_cases hx : x.id = id
    · rw [List.findSome?_cons_of_isSome, List.find?_cons_of_pos]
      · simp [hx]
      · simp [hx]
      · simp [hx]
    · rw [List.findSome?_cons_of_isNone, List.find?_cons_of_neg]
      · exact ih
      · simp [hx]
      · simp [hx]

lemma find_item_eq_spec_aux (id : LId) (l : List (List LiveScopeItem)) :
    (l.findSome? fun items =>
      items.reverse.findSome? fun item =>
        if item.id = id then some item.target else none) =
    (((l.map List.reverse).flatten.find?
      (fun item => item.id = id)).map (·.target)) := by
  induction l with
  | nil => rfl
  | cons f rest ih =>
    rw [List.map_cons, List.flatten_cons, List.find?_append]
    cases hf : f.reverse.find? (fun item => item.id = id) with
    | none =>
        rw [List.findSome?_cons_of_isNone]
        · rw [ih, Option.none_or]
        · rw [findSome?_guardTarget, hf]; rfl
    | some a =>
        rw [List.findSome?_cons_of_isSome]
        · rw [findSome?_guardTarget, hf, Option.or_some]
        · rw [findSome?_guardTarget, hf]; rfl

/-- C9: scope-stack lookup scans frames innermost (last pushed) to
outermost and within each frame bindings last-inserted first, returning the
first match — so the most recently inserted binding of a shadowed name
wins — and returns nothing exactly when no frame contains the name. -/
theorem find_item_scan_order (s : ScopeStack) (id : LId) :
    s.find_item id = find_item_spec s id ∧
    (s.find_item id = none ↔
      ∀ frame ∈ s.stack, ∀ item ∈ frame, item.id ≠ id) := by
  have h : s.find_item id = find_item_spec s id :=
    find_item_eq_spec_aux id s.stack.reverse
  refine ⟨h, ?_⟩
  rw [h]
  unfold find_item_spec
  rw [Option.map_eq_none']
  rw [List.find?_eq_none]
  constructor
  · intro hall frame hfr item hit
    have : item ∈ (s.stack.reverse.map List.reverse).flatten := by
      rw [List.mem_flatten]
      exact ⟨frame.reverse, List.mem_map_of_mem _ (by simpa using hfr),
        by simpa using hit⟩
    simpa using hall item this
  · intro hall x hx
    rw [List.mem_flatten] at hx
    obtain ⟨l, hl, hxl⟩ := hx
    rw [List.mem_map] at hl
    obtain ⟨fr, hfr, rfl⟩ := hl
    rw [List.mem_reverse] at hfr hxl
    simpa using hall fr hfr x hxl

/-- C8: when `copy_recur` copies a String-valued node across documents the
referenced interned-string run is appended to the destination's string
table and the copy's span starts at the old table length (the new offsets);
a same-document copy reuses the existing span and leaves the string table
unchanged. -/
theorem copy_recur_string_relocation (f : Nat) (din dout : LiveDocument)
    (fid : FileId) (skip_id : IdPack)
    (skip_level in_level out_level in_index ss sc : Nat) (tok : TokenId)
    (pack : IdPack) :
    (din.getNode in_level in_index = ⟨tok, pack, .str ss sc⟩ →
      copy_recur (f + 1) (some (din, fid)) dout skip_id skip_level in_level
          out_level in_index =
        some (.noop,
          LiveDocument.push_node
            { dout with
              strings := dout.strings ++ listSlice din.strings ss sc }
            out_level
            ⟨tok, if skip_level = in_level then skip_id else pack,
              .str dout.strings.length sc⟩)) ∧
    (dout.getNode in_level in_index = ⟨tok, pack, .str ss sc⟩ →
      copy_recur (f + 1) none dout skip_id skip_level in_level out_level
          in_index =
        some (.noop, dout.push_node out_level
          ⟨tok, if skip_level = in_level then skip_id else pack,
            .str ss sc⟩)) := by
  constructor
  · intro h
    unfold copy_recur
    rw [copyF]
    simp only [h, listSlice]
  · intro h
    unfold copy_recur
    rw [copyF]
    simp only [h, listSlice]

theorem copy_recur_string_relocation_witness :
    copy_recur 1 (some (strDocIn, ⟨0⟩)) strDocOut .empty 1 0 0 0 =
      some (.noop,
        { nodes := [[⟨⟨⟨0⟩, 3⟩, .single 20, .str 1 2⟩]],
          strings := [5, 8, 9] }) ∧
    copy_recur 1 none strDocSame .empty 1 0 0 0 =
      some (.noop,
        { nodes := [[⟨⟨⟨0⟩, 3⟩, .single 20, .str 0 2⟩,
                     ⟨⟨⟨0⟩, 3⟩, .single 20, .str 0 2⟩]],
          strings := [5, 6, 7] }) := by
  have h := copy_recur_string_relocation 0 strDocIn strDocOut ⟨0⟩ .empty 1 0
    0 0 1 2 ⟨⟨0⟩, 3⟩ (.single 20)
  have h2 := copy_recur_string_relocation 0 strDocIn strDocSame ⟨0⟩ .empty 1
    0 0 0 0 2 ⟨⟨0⟩, 3⟩ (.single 20)
  exact ⟨(h.1 rfl).trans (by decide), (h2.2 rfl).trans (by decide)⟩

lemma markSelf_dep_graph (reg : LiveRegistry) (cm : CrateModule) :
    (reg.markSelf cm).dep_graph = reg.dep_graph := by
  unfold LiveRegistry.markSelf
  cases alistGet reg.crate_module_to_file_id cm <;> rfl

lemma importers_cycle (reg : LiveRegistry) (hg : reg.dep_graph = cycleGraph) :
    reg.directImporters cycleA = [cycleB] ∧
    reg.directImporters cycleB = [cycleA] := by
  unfold LiveRegistry.directImporters
  rw [hg]
  exact ⟨by decide, by decide⟩

lemma markDirty_cycle_aux : ∀ fuel (reg : LiveRegistry),
    reg.dep_graph = cycleGraph →
    markDirtyF fuel (.inl cycleA) reg = none ∧
    markDirtyF fuel (.inl cycleB) reg = none ∧
    markDirtyF fuel (.inr [cycleA]) reg = none ∧
    markDirtyF fuel (.inr [cycleB]) reg = none := by
  intro fuel
  induction fuel with
  | zero => exact fun reg _ => ⟨rfl, rfl, rfl, rfl⟩
  | succ f ih =>
      intro reg hg
      have hga : (reg.markSelf cycleA).dep_graph = cycleGraph := by
        rw [markSelf_dep_graph]; exact hg
      have hgb : (reg.markSelf cycleB).dep_graph = cycleGraph := by
        rw [markSelf_dep_graph]; exact hg
      refine ⟨?_, ?_, ?_, ?_⟩
      · rw [markDirtyF, (importers_cycle reg hg).1]
        exact (ih (reg.markSelf cycleA) hga).2.2.2
      · rw [markDirtyF, (importers_cycle reg hg).2]
        exact (ih (reg.markSelf cycleB) hgb).2.2.1
      · rw [markDirtyF, (ih reg hg).1]
      · rw [markDirtyF, (ih reg hg).2.1]

/-- C1 counterexample evidence: on the two-module cycle the `mark_dirty`
recursion of `parse_live_file` never completes — for every recursion-depth
budget it is still recursing (the Rust, which carries no visited set,
recurses A → B → A → … until the stack overflows), so the dirty-marking
propagation does not terminate on a cyclic dependency graph. -/
theorem mark_dirty_cycle_diverges :
    ∀ fuel, markDirty fuel cycleA cycleReg = none :=
  fun fuel => (markDirty_cycle_aux fuel cycleReg rfl).1

/-- C2 counterexample evidence: on any lex/parse failure `parse_live_file`
panics (`panic!("Lex error …")` / `panic!("Parse error …")`) instead of
returning the structured failure its `Result` type declares; the
registration does not fail gracefully, the process aborts. -/
theorem parse_live_file_failure_panics (fuel : Nat) (reg : LiveRegistry)
    (msg file source : String) (crate_id module_id : LId) :
    parse_live_file fuel reg (.failed msg) file crate_id module_id source =
      .panicked := by
  simp [parse_live_file]

lemma chaseBase_sound (reg : LiveRegistry) :
    ∀ fuel p tok q tok2, chaseBase reg fuel p tok = some (q, tok2) →
    ChainEnds reg p q := by
  intro fuel
  induction fuel with
  | zero => intro p tok q tok2 h; exact absurd h (by rw [chaseBase]; simp)
  | succ f ih =>
      intro p tok q tok2 h
      cases p with
      | fullPtr fp =>
          rw [chaseBase] at h
          cases hv : (reg.resolve_node fp).value <;> rw [hv] at h <;>
              simp only [] at h <;>
            first
              | exact absurd h (by simp)
              | exact .step fp _ q _ _ hv (ih _ _ q tok2 h)
      | empty =>
          rw [chaseBase] at h
          simp only [Option.some.injEq, Prod.mk.injEq] at h
          obtain ⟨h1, -⟩ := h
          subst h1
          exact .done _ (fun fp h2 => IdPack.noConfusion h2)
      | single i =>
          rw [chaseBase] at h
          simp only [Option.some.injEq, Prod.mk.injEq] at h
          obtain ⟨h1, -⟩ := h
          subst h1
          exact .done _ (fun fp h2 => IdPack.noConfusion h2)
      | multi i c =>
          rw [chaseBase] at h
          simp only [Option.some.injEq, Prod.mk.injEq] at h
          obtain ⟨h1, -⟩ := h
          subst h1
          exact .done _ (fun fp h2 => IdPack.noConfusion h2)

lemma chaseBase_det (reg : LiveRegistry) {p q : IdPack}
    (hc : ChainEnds reg p q) :
    ∀ fuel tok r tok2, chaseBase reg fuel p tok = some (r, tok2) → r = q := by
  induction hc with
  | done p hnp =>
      intro fuel tok r tok2 h
      cases fuel with
      | zero => exact absurd h (by rw [chaseBase]; simp)
      | succ f =>
          cases p with
          | fullPtr fp => exact absurd rfl (hnp fp)
          | empty =>
              rw [chaseBase] at h
              simp only [Option.some.injEq, Prod.mk.injEq] at h
              exact h.1.symm
          | single i =>
              rw [chaseBase] at h
              simp only [Option.some.injEq, Prod.mk.injEq] at h
              exact h.1.symm
          | multi i c =>
              rw [chaseBase] at h
              simp only [Option.some.injEq, Prod.mk.injEq] at h
              exact h.1.symm
  | step fp base q2 ns nc hnode _ ih =>
      intro fuel tok r tok2 h
      cases fuel with
      | zero => exact absurd h (by rw [chaseBase]; simp)
      | succ f =>
          rw [chaseBase] at h
          rw [hnode] at h
          exact ih f _ r tok2 h

lemma chaseBase_blocked (reg : LiveRegistry) {p : IdPack}
    (hb : ChainBlocked reg p) :
    ∀ fuel tok, chaseBase reg fuel p tok = none := by
  induction hb with
  | here fp hnot =>
      intro fuel tok
      cases fuel with
      | zero => rw [chaseBase]
      | succ f =>
          rw [chaseBase]
          cases hv : (reg.resolve_node fp).value <;> try rfl
          case cls base ns nc => exact absurd hv (hnot base ns nc)
  | step fp base ns nc hnode _ ih =>
      intro fuel tok
      cases fuel with
      | zero => rw [chaseBase]
      | succ f =>
          rw [chaseBase]
          rw [hnode]
          exact ih f _

/-- C10: `find_component_origin` returns `some` only when the named node is
a class whose base-class pointer chain ends at exactly the reserved
`Component` id; when the chain of the named class ends at any other
non-pointer id (another reserved root kind, or any other id), or passes
through a pointer to a non-class node, it returns `none` at every depth
budget. -/
theorem find_component_origin_component_chain :
    (∀ fuel (reg : LiveRegistry) (crate_id module_id : LId) ids cm oid fp,
      find_component_origin fuel reg crate_id module_id ids =
        some (cm, oid, fp) →
      ∃ fid ptr base ns nc,
        alistGet reg.crate_module_to_file_id ⟨crate_id, module_id⟩ =
          some fid ∧
        (reg.expanded.getD fid.to_index {}).scan_for_multi ids = some ptr ∧
        ((reg.expanded.getD fid.to_index {}).getNode ptr.level
          ptr.index).value = .cls base ns nc ∧
        ChainEnds reg base (.single idComponent) ∧ fp = ⟨fid, ptr⟩) ∧
    (∀ fuel (reg : LiveRegistry) (crate_id module_id : LId) ids fid ptr base
        ns nc q,
      alistGet reg.crate_module_to_file_id ⟨crate_id, module_id⟩ =
        some fid →
      (reg.expanded.getD fid.to_index {}).scan_for_multi ids = some ptr →
      ((reg.expanded.getD fid.to_index {}).getNode ptr.level
        ptr.index).value = .cls base ns nc →
      ChainEnds reg base q → q ≠ .single idComponent →
      find_component_origin fuel reg crate_id module_id ids = none) ∧
    (∀ fuel (reg : LiveRegistry) (crate_id module_id : LId) ids fid ptr base
        ns nc,
      alistGet reg.crate_module_to_file_id ⟨crate_id, module_id⟩ =
        some fid →
      (reg.expanded.getD fid.to_index {}).scan_for_multi ids = some ptr →
      ((reg.expanded.getD fid.to_index {}).getNode ptr.level
        ptr.index).value = .cls base ns nc →
      ChainBlocked reg base →
      find_component_origin fuel reg crate_id module_id ids = none) := by
  refine ⟨?_, ?_, ?_⟩
  · intro fuel reg cid mid ids cm oid fp h
    rw [find_component_origin] at h
    cases hfid : alistGet reg.crate_module_to_file_id ⟨cid, mid⟩ with
    | none => simp only [hfid] at h; exact Option.noConfusion h
    | some fid =>
        simp only [hfid] at h
        cases hscan : (reg.expanded.getD fid.to_index {}).scan_for_multi
            ids with
        | none => simp only [hscan] at h; exact Option.noConfusion h
        | some ptr =>
            simp only [hscan] at h
            cases hv : ((reg.expanded.getD fid.to_index {}).getNode ptr.level
                ptr.index).value <;> simp only [hv] at h <;>
              try exact Option.noConfusion h
            case cls base ns nc =>
              cases hch : chaseBase reg fuel base
                  ((reg.expanded.getD fid.to_index {}).getNode ptr.level
                    ptr.index).token_id with
              | none => simp only [hch] at h; exact Option.noConfusion h
              | some endpair =>
                  obtain ⟨endId, tokIt⟩ := endpair
                  simp only [hch] at h
                  by_cases hend : endId = IdPack.single idComponent
                  · refine ⟨fid, ptr, base, ns, nc, rfl, hscan, hv, ?_, ?_⟩
                    · exact hend ▸ chaseBase_sound reg fuel base _ endId _ hch
                    · rw [if_neg (by simp [hend])] at h
                      cases htok : (reg.expanded.getD
                          tokIt.file_id.to_index {}).tokens.get?
                          (tokIt.token_id - 2) with
                      | none => simp only [htok] at h
                                exact Option.noConfusion h
                      | some t =>
                          simp only [htok] at h
                          cases t with
                          | ident i =>
                              simp only [Option.some.injEq,
                                Prod.mk.injEq] at h
                              exact h.2.2.symm
                          | other cdd => simp at h
                  · rw [if_pos (by simp [hend])] at h
                    exact absurd h (by simp)
  · intro fuel reg cid mid ids fid ptr base ns nc q hfid hscan hv hch hne
    rw [find_component_origin]
    simp only [hfid, hscan, hv]
    cases hc : chaseBase reg fuel base
        ((reg.expanded.getD fid.to_index {}).getNode ptr.level
          ptr.index).token_id with
    | none => simp only [hc]
    | some endpair =>
        obtain ⟨endId, tokIt⟩ := endpair
        have he : endId = q := chaseBase_det reg hch fuel _ endId tokIt hc
        subst he
        simp only [hc]
        rw [if_pos hne]
  · intro fuel reg cid mid ids fid ptr base ns nc hfid hscan hv hb
    rw [find_component_origin]
    simp only [hfid, hscan, hv, chaseBase_blocked reg hb fuel]

theorem find_component_origin_component_chain_witness :
    (∃ fid ptr base ns nc,
      alistGet regComp.crate_module_to_file_id ⟨20, 21⟩ = some fid ∧
      (regComp.expanded.getD fid.to_index {}).scan_for_multi [10] =
        some ptr ∧
      ((regComp.expanded.getD fid.to_index {}).getNode ptr.level
        ptr.index).value = .cls base ns nc ∧
      ChainEnds regComp base (.single idComponent) ∧
      (⟨⟨0⟩, ⟨0, 0⟩⟩ : FullNodePtr) = ⟨fid, ptr⟩) ∧
    find_component_origin 3 regEnum 20 21 [10] = none ∧
    find_component_origin 3 regBlocked 20 21 [10] = none := by
  refine ⟨?_, ?_, ?_⟩
  · exact find_component_origin_component_chain.1 2 regComp 20 21 [10]
      ⟨20, 21⟩ 40 ⟨⟨0⟩, ⟨0, 0⟩⟩ (by decide)
  · exact find_component_origin_component_chain.2.1 3 regEnum 20 21 [10]
      ⟨0⟩ ⟨0, 0⟩ (.single idEnum) 0 0 (.single idEnum) rfl rfl rfl
      (.done _ (fun fp h => IdPack.noConfusion h)) (by decide)
  · exact find_component_origin_component_chain.2.2 3 regBlocked 20 21 [10]
      ⟨0⟩ ⟨0, 0⟩ (.fullPtr ⟨⟨0⟩, ⟨0, 1⟩⟩) 0 0 rfl rfl rfl
      (.here _ (fun b ns nc hh =>
        LiveValue.noConfusion
          (show LiveValue.intV 7 = LiveValue.cls b ns nc from hh)))

/-- C3 evidence: registering a module whose use-import names a crate-module
with no registered file succeeds at parse time, and the unregistered module
is placed in the processing order ahead of its importer; but the next
`expand_all_documents` pass, after recording the missing-dependency error
and skipping the unregistered module, panics (`unwrap()` on the
crate-module lookup in the `Use` arm of `walk_node`) when it walks the
importer — the pass aborts instead of continuing. -/
theorem expand_missing_dependency_panics :
    parse_live_file 9 {} (.parsed missingDepDoc) "main.live" 20 21
      "srctext" = .ok (regMissingDep, ⟨0⟩) ∧
    regMissingDep.dep_order =
      [(⟨11, 12⟩, ⟨⟨0⟩, 5⟩), (⟨20, 21⟩, ⟨⟨0⟩, 0⟩)] ∧
    expand_all_documents 9 regMissingDep [] = .panicked := by
  refine ⟨by decide, by decide, by decide⟩

section FindIdxLemmas

variable {α : Type u} {p q : α → Bool}

lemma findIdx?_cons_zero (p : α → Bool) (x : α) (xs : List α) :
    (x :: xs).findIdx? p =
      if p x then some 0 else (xs.findIdx? p).map (· + 1) := by
  rw [List.findIdx?_cons]
  split
  · rfl
  · simp

lemma findIdx?_insertAt_fresh (a : α) (hpa : p a = true) (hqa : q a = false) :
    ∀ (xs : List α) (si : Nat), xs.findIdx? q = some si →
    xs.findIdx? p = none →
    (insertAt si a xs).findIdx? p = some si ∧
    (insertAt si a xs).findIdx? q = some (si + 1) := by
  intro xs
  induction xs with
  | nil => intro si h; simp at h
  | cons v rest ih =>
      intro si hq hp
      rw [findIdx?_cons_zero] at hq hp
      cases hqv : q v with
      | true =>
          rw [hqv, if_pos rfl] at hq
          cases hq
          show ((a :: v :: rest).findIdx? p = some 0) ∧
            ((a :: v :: rest).findIdx? q = some 1)
          rw [findIdx?_cons_zero, if_pos hpa, findIdx?_cons_zero, hqa,
            findIdx?_cons_zero, hqv]
          exact ⟨rfl, rfl⟩
      | false =>
          rw [hqv] at hq
          simp only [Bool.false_eq_true, if_false,
            Option.map_eq_some'] at hq
          obtain ⟨si', hsi', rfl⟩ := hq
          cases hpv : p v with
          | true => rw [hpv, if_pos rfl] at hp; cases hp
          | false =>
              rw [hpv] at hp
              simp only [Bool.false_eq_true, if_false,
                Option.map_eq_none'] at hp
              obtain ⟨h1, h2⟩ := ih si' hsi' hp
              show ((v :: insertAt si' a rest).findIdx? p = some (si' + 1)) ∧
                ((v :: insertAt si' a rest).findIdx? q = some (si' + 1 + 1))
              rw [findIdx?_cons_zero, hpv, findIdx?_cons_zero, hqv]
              simp only [Bool.false_eq_true, if_false, h1, h2]
              exact ⟨rfl, rfl⟩

lemma findIdx?_relocate (a : α) (hpa : p a = true) (hqa : q a = false)
    (hpq : ∀ x, p x = true → q x = true → False) :
    ∀ (xs : List α) (si oi : Nat), xs.findIdx? q = some si →
    xs.findIdx? p = some oi → si < oi →
    (insertAt si a (eraseAt oi xs)).findIdx? p = some si ∧
    (insertAt si a (eraseAt oi xs)).findIdx? q = some (si + 1) := by
  intro xs
  induction xs with
  | nil => intro si oi h; simp at h
  | cons v rest ih =>
      intro si oi hq hp hlt
      rw [findIdx?_cons_zero] at hq hp
      cases hqv : q v with
      | true =>
          rw [hqv, if_pos rfl] at hq
          cases hq
          cases hpv : p v with
          | true => exact absurd hqv (hpq v hpv)
          | false =>
              rw [hpv] at hp
              simp only [Bool.false_eq_true, if_false,
                Option.map_eq_some'] at hp
              obtain ⟨oi', hoi', rfl⟩ := hp
              show ((a :: v :: eraseAt oi' rest).findIdx? p = some 0) ∧
                ((a :: v :: eraseAt oi' rest).findIdx? q = some 1)
              rw [findIdx?_cons_zero, if_pos hpa, findIdx?_cons_zero, hqa,
                findIdx?_cons_zero, hqv]
              exact ⟨rfl, rfl⟩
      | false =>
          rw [hqv] at hq
          simp only [Bool.false_eq_true, if_false,
            Option.map_eq_some'] at hq
          obtain ⟨si', hsi', rfl⟩ := hq
          cases hpv : p v with
          | true =>
              rw [hpv, if_pos rfl] at hp
              cases hp
              exact absurd hlt (by simp)
          | false =>
              rw [hpv] at hp
              simp only [Bool.false_eq_true, if_false,
                Option.map_eq_some'] at hp
              obtain ⟨oi', hoi', rfl⟩ := hp
              obtain ⟨h1, h2⟩ := ih si' oi' hsi' hoi'
                (Nat.lt_of_succ_lt_succ hlt)
              show ((v :: insertAt si' a (eraseAt oi' rest)).findIdx? p =
                  some (si' + 1)) ∧
                ((v :: insertAt si' a (eraseAt oi' rest)).findIdx? q =
                  some (si' + 1 + 1))
              rw [findIdx?_cons_zero, hpv, findIdx?_cons_zero, hqv]
              simp only [Bool.false_eq_true, if_false, h1, h2]
              exact ⟨rfl, rfl⟩

lemma findIdx?_insertAt_later (a : α) :
    ∀ (xs : List α) (j pu : Nat), xs.findIdx? p = some pu → pu < j →
    (insertAt j a xs).findIdx? p = some pu := by
  intro xs
  induction xs with
  | nil => intro j pu h; simp at h
  | cons v rest ih =>
      intro j pu hp hlt
      rw [findIdx?_cons_zero] at hp
      obtain ⟨j', rfl⟩ : ∃ j', j = j' + 1 :=
        ⟨j - 1, by omega⟩
      cases hpv : p v with
      | true =>
          rw [hpv, if_pos rfl] at hp
          cases hp
          show ((v :: insertAt j' a rest).findIdx? p = some 0)
          rw [findIdx?_cons_zero, hpv, if_pos rfl]
      | false =>
          rw [hpv] at hp
          simp only [Bool.false_eq_true, if_false,
            Option.map_eq_some'] at hp
          obtain ⟨pu', hpu', rfl⟩ := hp
          show ((v :: insertAt j' a rest).findIdx? p = some (pu' + 1))
          rw [findIdx?_cons_zero, hpv]
          simp only [Bool.false_eq_true, if_false,
            ih j' pu' hpu' (Nat.lt_of_succ_lt_succ hlt)]
          rfl

lemma findIdx?_eraseAt_later :
    ∀ (xs : List α) (j pu : Nat), xs.findIdx? p = some pu → pu < j →
    (eraseAt j xs).findIdx? p = some pu := by
  intro xs
  induction xs with
  | nil => intro j pu h; simp at h
  | cons v rest ih =>
      intro j pu hp hlt
      rw [findIdx?_cons_zero] at hp
      obtain ⟨j', rfl⟩ : ∃ j', j = j' + 1 :=
        ⟨j - 1, by omega⟩
      cases hpv : p v with
      | true =>
          rw [hpv, if_pos rfl] at hp
          cases hp
          show ((v :: eraseAt j' rest).findIdx? p = some 0)
          rw [findIdx?_cons_zero, hpv, if_pos rfl]
      | false =>
          rw [hpv] at hp
          simp only [Bool.false_eq_true, if_false,
            Option.map_eq_some'] at hp
          obtain ⟨pu', hpu', rfl⟩ := hp
          show ((v :: eraseAt j' rest).findIdx? p = some (pu' + 1))
          rw [findIdx?_cons_zero, hpv]
          simp only [Bool.false_eq_true, if_false,
            ih j' pu' hpu' (Nat.lt_of_succ_lt_succ hlt)]
          rfl

lemma findIdx?_ne_of_disjoint
    (hpq : ∀ x, p x = true → q x = true → False) (xs : List α) (i j : Nat)
    (hi : xs.findIdx? p = some i) (hj : xs.findIdx? q = some j) : i ≠ j := by
  intro hij
  subst hij
  rw [List.findIdx?_eq_some_iff_getElem] at hi hj
  obtain ⟨hlen, hpi, -⟩ := hi
  obtain ⟨hlen2, hqi, -⟩ := hj
  exact hpq _ hpi hqi

end FindIdxLemmas

section AlistLemmas

variable {κ : Type u} {β : Type v} [DecidableEq κ]

lemma alistGet_put_self (l : List (κ × β)) (k : κ) (v : β) :
    alistGet (alistPut l k v) k = some v := by
  induction l with
  | nil => simp [alistPut, alistGet]
  | cons x xs ih =>
      obtain ⟨k', v'⟩ := x
      by_cases hx : k' = k
      · simp [alistPut, hx, alistGet]
      · simpa [alistPut, hx, alistGet] using ih

lemma alistGet_put_ne (l : List (κ × β)) (k k' : κ) (v : β) (hne : k' ≠ k) :
    alistGet (alistPut l k v) k' = alistGet l k' := by
  induction l with
  | nil => simp [alistPut, alistGet, Ne.symm hne]
  | cons x xs ih =>
      obtain ⟨k0, v0⟩ := x
      by_cases hx : k0 = k
      · subst hx
        simp [alistPut, alistGet, Ne.symm hne]
      · by_cases hk : k0 = k'
        · simp [alistPut, hx, alistGet, hk, hne]
        · simpa [alistPut, hx, alistGet, hk, hne] using ih

lemma mem_setInsert [DecidableEq γ] (l : List γ) (a x : γ) :
    x ∈ setInsert l a ↔ x ∈ l ∨ x = a := by
  unfold setInsert
  by_cases ha : a ∈ l
  · rw [if_pos ha]
    constructor
    · exact fun h => .inl h
    · rintro (h | rfl)
      · exact h
      · exact ha
  · rw [if_neg ha]
    simp

end AlistLemmas

lemma markSelf_fields (reg : LiveRegistry) (cm : CrateModule) :
    (reg.markSelf cm).crate_module_to_file_id =
      reg.crate_module_to_file_id ∧
    (reg.markSelf cm).dep_order = reg.dep_order ∧
    (reg.markSelf cm).dep_graph = reg.dep_graph ∧
    (reg.markSelf cm).file_ids = reg.file_ids ∧
    (reg.markSelf cm).live_files = reg.live_files ∧
    (reg.markSelf cm).expanded.length = reg.expanded.length := by
  unfold LiveRegistry.markSelf LiveRegistry.setRecompile
  cases alistGet reg.crate_module_to_file_id cm <;>
    simp

/-- `mark_dirty` only flips dirty flags: every other registry component,
and the number of expanded documents, is unchanged. -/
lemma markDirtyF_preserves : ∀ (fuel : Nat) call (reg reg' : LiveRegistry),
    markDirtyF fuel call reg = some reg' →
    reg'.crate_module_to_file_id = reg.crate_module_to_file_id ∧
    reg'.dep_order = reg.dep_order ∧
    reg'.dep_graph = reg.dep_graph ∧
    reg'.file_ids = reg.file_ids ∧
    reg'.live_files = reg.live_files ∧
    reg'.expanded.length = reg.expanded.length := by
  intro fuel
  induction fuel with
  | zero => intro call reg reg' h; exact Option.noConfusion h
  | succ f ih =>
      intro call reg reg' h
      cases call with
      | inl cm =>
          rw [markDirtyF] at h
          obtain ⟨a1, a2, a3, a4, a5, a6⟩ := ih _ _ _ h
          obtain ⟨b1, b2, b3, b4, b5, b6⟩ := markSelf_fields reg cm
          exact ⟨a1.trans b1, a2.trans b2, a3.trans b3, a4.trans b4,
            a5.trans b5, a6.trans b6⟩
      | inr ds =>
          cases ds with
          | nil =>
              rw [markDirtyF] at h
              cases h
              exact ⟨rfl, rfl, rfl, rfl, rfl, rfl⟩
          | cons d rest =>
              rw [markDirtyF] at h
              cases hm : markDirtyF f (.inl d) reg with
              | none => rw [hm] at h; exact Option.noConfusion h
              | some reg2 =>
                  rw [hm] at h
                  obtain ⟨a1, a2, a3, a4, a5, a6⟩ := ih _ _ _ h
                  obtain ⟨b1, b2, b3, b4, b5, b6⟩ := ih _ _ _ hm
                  exact ⟨a1.trans b1, a2.trans b2, a3.trans b3, a4.trans b4,
                    a5.trans b5, a6.trans b6⟩

lemma depOrderStep_invariant (own cm : CrateModule) (tok : TokenId)
    (s : List CrateModule) (order order2 : List (CrateModule × TokenId))
    (hstep : depOrderStep own cm tok order = some order2)
    (hinv : ImportsPrecede own s order) :
    ImportsPrecede own (setInsert s cm) order2 := by
  obtain ⟨⟨po, hpo⟩, hmem⟩ := hinv
  unfold depOrderStep at hstep
  rw [hpo] at hstep
  unfold ImportsPrecede
  unfold depOrderPos at hpo hmem ⊢
  cases hpu : List.findIdx? (fun v => decide (v.1 = cm)) order with
  | none =>
      rw [show depOrderPos order cm =
            List.findIdx? (fun v => decide (v.1 = cm)) order from rfl,
          hpu] at hstep
      simp only [Option.some.injEq] at hstep
      subst hstep
      have hne : cm ≠ own := by
        intro hcm
        rw [hcm, hpo] at hpu
        exact Option.noConfusion hpu
      obtain ⟨h1, h2⟩ := findIdx?_insertAt_fresh
        (p := fun v => decide (v.1 = cm)) (q := fun v => decide (v.1 = own))
        (cm, tok) (by simp) (by simp [hne]) order po hpo hpu
      refine ⟨⟨po + 1, h2⟩, ?_⟩
      intro u hu hune
      rcases (mem_setInsert s cm u).1 hu with hold | heq
      · obtain ⟨pu, po', hpu', hpo', hlt⟩ := hmem u hold hune
        rw [hpo] at hpo'
        injection hpo' with hpo''
        subst hpo''
        refine ⟨pu, po + 1, ?_, h2, by omega⟩
        exact findIdx?_insertAt_later (cm, tok) order po pu hpu' hlt
      · subst heq
        exact ⟨po, po + 1, h1, h2, Nat.lt_succ_self po⟩
  | some oi =>
      rw [show depOrderPos order cm =
            List.findIdx? (fun v => decide (v.1 = cm)) order from rfl,
          hpu] at hstep
      simp only [] at hstep
      by_cases hlt : po < oi
      · rw [if_pos hlt] at hstep
        simp only [Option.some.injEq] at hstep
        subst hstep
        have hne : cm ≠ own := by
          intro hcm
          subst hcm
          rw [hpo] at hpu
          injection hpu with he
          omega
        have hdisj : ∀ x : CrateModule × TokenId,
            decide (x.1 = cm) = true → decide (x.1 = own) = true → False :=
          fun x hx1 hx2 =>
            hne ((of_decide_eq_true hx1).symm.trans (of_decide_eq_true hx2))
        obtain ⟨h1, h2⟩ := findIdx?_relocate
          (p := fun v => decide (v.1 = cm))
          (q := fun v => decide (v.1 = own))
          (cm, tok) (by simp) (by simp [hne]) hdisj order po oi hpo hpu hlt
        refine ⟨⟨po + 1, h2⟩, ?_⟩
        intro u hu hune
        rcases (mem_setInsert s cm u).1 hu with hold | heq
        · obtain ⟨pu, po', hpu', hpo', hplt⟩ := hmem u hold hune
          rw [hpo] at hpo'
          injection hpo' with he
          subst he
          refine ⟨pu, po + 1, ?_, h2, by omega⟩
          have he1 := findIdx?_eraseAt_later
            (p := fun v => decide (v.1 = u)) order oi pu hpu' (by omega)
          exact findIdx?_insertAt_later (cm, tok) _ po pu he1 hplt
        · subst heq
          exact ⟨po, po + 1, h1, h2, Nat.lt_succ_self po⟩
      · rw [if_neg hlt] at hstep
        simp only [Option.some.injEq] at hstep
        subst hstep
        refine ⟨⟨po, hpo⟩, ?_⟩
        intro u hu hune
        rcases (mem_setInsert s cm u).1 hu with hold | heq
        · exact hmem u hold hune
        · subst heq
          have hdisj : ∀ x : CrateModule × TokenId,
              decide (x.1 = u) = true → decide (x.1 = own) = true → False :=
            fun x hx1 hx2 =>
              hune ((of_decide_eq_true hx1).symm.trans
                (of_decide_eq_true hx2))
          have hne2 : oi ≠ po := findIdx?_ne_of_disjoint hdisj order oi po
            hpu hpo
          exact ⟨oi, po, hpu, hpo, by omega⟩

lemma getD_set_self (l : List γ) (j : Nat) (a d : γ) (h : j < l.length) :
    (l.set j a).getD j d = a := by
  simp [List.getD_eq_getElem?_getD, List.getElem?_set_self h]

lemma getD_set_other (l : List γ) (i j : Nat) (a d : γ) (h : i ≠ j) :
    (l.set j a).getD i d = l.getD i d := by
  simp [List.getD_eq_getElem?_getD, List.getElem?_set_ne (Ne.symm h)]

lemma getD_append_left (l l2 : List γ) (i : Nat) (d : γ) (h : i < l.length) :
    (l ++ l2).getD i d = l.getD i d := by
  simp [List.getD_eq_getElem?_getD, List.getElem?_append_left h]

lemma parseUseNode_invariant (own : CrateModule) (cid : LId)
    (doc : LiveDocument) (nd : LiveNode) (s : List CrateModule)
    (order : List (CrateModule × TokenId))
    (st2 : List CrateModule × List (CrateModule × TokenId))
    (h : parseUseNode own cid doc nd (s, order) = some st2)
    (hinv : ImportsPrecede own s order) :
    ImportsPrecede own st2.1 st2.2 := by
  unfold parseUseNode at h
  cases hv : nd.value <;> rw [hv] at h <;> simp only [] at h <;>
    first
      | (injection h with h2; subst h2; exact hinv)
      | skip
  rename_i cm0
  cases hds : depOrderStep own (doc.fetch_crate_module cm0 cid) nd.token_id
      order with
  | none => rw [hds] at h; exact Option.noConfusion h
  | some o2 =>
      rw [hds] at h
      simp only [Option.some.injEq] at h
      subst h
      exact depOrderStep_invariant own _ _ s order o2 hds hinv

lemma parseUseLevel_invariant (own : CrateModule) (cid : LId)
    (doc : LiveDocument) :
    ∀ (ns : List LiveNode) st st2,
    parseUseLevel own cid doc ns st = some st2 →
    ImportsPrecede own st.1 st.2 → ImportsPrecede own st2.1 st2.2 := by
  intro ns
  induction ns with
  | nil =>
      intro st st2 h hinv
      rw [parseUseLevel] at h
      cases h
      exact hinv
  | cons n rest ih =>
      intro st st2 h hinv
      rw [parseUseLevel] at h
      cases hn : parseUseNode own cid doc n st with
      | none => rw [hn] at h; exact Option.noConfusion h
      | some stm =>
          rw [hn] at h
          exact ih stm st2 h
            (parseUseNode_invariant own cid doc n st.1 st.2 stm hn hinv)

lemma parseUseLevels_invariant (own : CrateModule) (cid : LId)
    (doc : LiveDocument) :
    ∀ (ls : List (List LiveNode)) st st2,
    parseUseLevels own cid doc ls st = some st2 →
    ImportsPrecede own st.1 st.2 → ImportsPrecede own st2.1 st2.2 := by
  intro ls
  induction ls with
  | nil =>
      intro st st2 h hinv
      rw [parseUseLevels] at h
      cases h
      exact hinv
  | cons ns rest ih =>
      intro st st2 h hinv
      rw [parseUseLevels] at h
      cases hn : parseUseLevel own cid doc ns st with
      | none => rw [hn] at h; exact Option.noConfusion h
      | some stm =>
          rw [hn] at h
          exact ih stm st2 h
            (parseUseLevel_invariant own cid doc ns st stm hn hinv)

/-- Decomposition of a successful `parse_finish`: the returned file id is
the one passed in, the use-import scan succeeded, and the result registry
is assembled from its output; true dirty flags of the intermediate registry
survive into the result. -/
lemma parse_finish_spec (reg1 : LiveRegistry) (own : CrateModule)
    (is_new : Bool) (fid0 : FileId) (file src : String)
    (doc : LiveDocument) (reg' : LiveRegistry) (fid : FileId)
    (h : parse_finish reg1 own is_new fid0 file src doc = .ok (reg', fid)) :
    fid = fid0 ∧ ∃ dep_set dep_order2,
      parseUseLevels own own.crateId doc doc.nodes ([], reg1.dep_order) =
        some (dep_set, dep_order2) ∧
      reg'.dep_order = dep_order2 ∧
      reg'.dep_graph = alistPut reg1.dep_graph own dep_set ∧
      reg'.crate_module_to_file_id =
        alistPut reg1.crate_module_to_file_id own fid0 ∧
      (∀ i, (reg1.expanded.getD i {}).recompile = true →
        (reg'.expanded.getD i {}).recompile = true) := by
  rw [parse_finish] at h
  cases hpul : parseUseLevels own own.crateId doc doc.nodes
      ([], reg1.dep_order) with
  | none => rw [hpul] at h; exact Outcome.noConfusion h
  | some pr =>
      obtain ⟨dep_set, dep_order2⟩ := pr
      rw [hpul] at h
      simp only [] at h
      cases is_new with
      | true =>
          rw [if_pos rfl] at h
          cases h
          refine ⟨rfl, dep_set, dep_order2, rfl, rfl, rfl, rfl, ?_⟩
          intro i hi
          show (((reg1.expanded ++ [LiveDocument.new]).getD i
            {}).recompile) = true
          by_cases hlen : i < reg1.expanded.length
          · rw [getD_append_left _ _ _ _ hlen]
            exact hi
          · rw [List.getD_eq_getElem?_getD]
            by_cases hi2 : i = reg1.expanded.length
            · subst hi2
              rw [List.getElem?_append_right (Nat.le_refl _)]
              simp [LiveDocument.new]
            · rw [List.getElem?_append_right (by omega)]
              have : 1 ≤ i - reg1.expanded.length := by omega
              rw [List.getElem?_eq_none (by simpa using this)]
              rfl
      | false =>
          rw [if_neg (by simp)] at h
          cases h
          refine ⟨rfl, dep_set, dep_order2, rfl, rfl, rfl, rfl, ?_⟩
          intro i hi
          show (((reg1.expanded.set fid0.to_index
            { reg1.expanded.getD fid0.to_index {} with
              recompile := true }).getD i {}).recompile) = true
          by_cases hi2 : i = fid0.to_index
          · subst hi2
            by_cases hlen : fid0.to_index < reg1.expanded.length
            · rw [getD_set_self _ _ _ _ hlen]
            · rw [show reg1.expanded.set fid0.to_index
                  { reg1.expanded.getD fid0.to_index {} with
                    recompile := true } = reg1.expanded from
                  List.set_eq_of_length_le (by omega)]
              exact hi
          · rw [getD_set_other _ _ _ _ _ hi2]
            exact hi

/-- Decomposition of a successful `parse_live_file` run into the
dirty-marking step and the assembly performed by `parse_finish`. -/
lemma parse_live_file_spec (fuel : Nat) (reg : LiveRegistry)
    (doc : LiveDocument) (file src : String) (c m : LId)
    (reg' : LiveRegistry) (fid : FileId)
    (h : parse_live_file fuel reg (.parsed doc) file c m src =
      .ok (reg', fid)) :
    ∃ reg1,
      (((depOrderPos reg.dep_order ⟨c, m⟩).isNone = true ∧
          reg1 = { reg with
            dep_order := reg.dep_order ++
              [(⟨c, m⟩, (default : TokenId))] }) ∨
        ((depOrderPos reg.dep_order ⟨c, m⟩).isNone = false ∧
          markDirty fuel ⟨c, m⟩ reg = some reg1)) ∧
      ∃ dep_set dep_order2,
        parseUseLevels ⟨c, m⟩ c doc doc.nodes ([], reg1.dep_order) =
          some (dep_set, dep_order2) ∧
        reg'.dep_order = dep_order2 ∧
        reg'.dep_graph = alistPut reg1.dep_graph ⟨c, m⟩ dep_set ∧
        reg'.crate_module_to_file_id =
          alistPut reg1.crate_module_to_file_id ⟨c, m⟩ fid ∧
        (∀ i, (reg1.expanded.getD i {}).recompile = true →
          (reg'.expanded.getD i {}).recompile = true) := by
  rw [parse_live_file] at h
  by_cases hord : (depOrderPos reg.dep_order ⟨c, m⟩).isNone
  · rw [if_pos hord] at h
    simp only [] at h
    obtain ⟨he, dep_set, dep_order2, hpul, h1, h2, h3, h4⟩ :=
      parse_finish_spec _ _ _ _ _ _ _ _ _ h
    subst he
    exact ⟨_, .inl ⟨by simpa using hord, rfl⟩,
      dep_set, dep_order2, hpul, h1, h2, h3, h4⟩
  · rw [if_neg hord] at h
    cases hmark : markDirty fuel ⟨c, m⟩ reg with
    | none => rw [hmark] at h; exact Outcome.noConfusion h
    | some reg1 =>
        rw [hmark] at h
        simp only [] at h
        obtain ⟨he, dep_set, dep_order2, hpul, h1, h2, h3, h4⟩ :=
          parse_finish_spec _ _ _ _ _ _ _ _ _ h
        subst he
        have hord2 : (depOrderPos reg.dep_order
            (⟨c, m⟩ : CrateModule)).isNone = false := by
          revert hord
          cases (depOrderPos reg.dep_order (⟨c, m⟩ : CrateModule)).isNone <;>
            simp
        exact ⟨reg1, .inr ⟨hord2, rfl⟩,
          dep_set, dep_order2, hpul, h1, h2, h3, h4⟩

lemma pos_append_self (order : List (CrateModule × TokenId))
    (own : CrateModule) (tok : TokenId)
    (h : depOrderPos order own = none) :
    depOrderPos (order ++ [(own, tok)]) own = some order.length := by
  unfold depOrderPos at h ⊢
  rw [List.findIdx?_append, h, Option.none_or]
  rw [findIdx?_cons_zero]
  simp

/-- C6: after `parse_live_file` registers a module, a use-import absent
from the processing order is inserted immediately before the importer; one
present after the importer is relocated immediately before it; and in the
resulting registry every collected import of the module (other than the
module itself) precedes the module in `dep_order`. -/
theorem dep_order_repair :
    (∀ (own u : CrateModule) (tok : TokenId)
        (order : List (CrateModule × TokenId)) (si : Nat), u ≠ own →
      depOrderPos order own = some si → depOrderPos order u = none →
      depOrderStep own u tok order = some (insertAt si (u, tok) order) ∧
      depOrderPos (insertAt si (u, tok) order) u = some si ∧
      depOrderPos (insertAt si (u, tok) order) own = some (si + 1)) ∧
    (∀ (own u : CrateModule) (tok : TokenId)
        (order : List (CrateModule × TokenId)) (si oi : Nat), u ≠ own →
      depOrderPos order own = some si → depOrderPos order u = some oi →
      si < oi →
      depOrderStep own u tok order =
        some (insertAt si (u, tok) (eraseAt oi order)) ∧
      depOrderPos (insertAt si (u, tok) (eraseAt oi order)) u = some si ∧
      depOrderPos (insertAt si (u, tok) (eraseAt oi order)) own =
        some (si + 1)) ∧
    (∀ (fuel : Nat) (reg : LiveRegistry) (doc : LiveDocument)
        (file src : String) (c m : LId) (reg' : LiveRegistry) (fid : FileId)
        (dep_set : List CrateModule) (u : CrateModule),
      parse_live_file fuel reg (.parsed doc) file c m src =
        .ok (reg', fid) →
      alistGet reg'.dep_graph ⟨c, m⟩ = some dep_set →
      u ∈ dep_set → u ≠ ⟨c, m⟩ →
      ∃ pu po, depOrderPos reg'.dep_order u = some pu ∧
        depOrderPos reg'.dep_order ⟨c, m⟩ = some po ∧ pu < po) := by
  refine ⟨?_, ?_, ?_⟩
  · intro own u tok order si hne hpo hpu
    have hstep : depOrderStep own u tok order =
        some (insertAt si (u, tok) order) := by
      unfold depOrderStep
      rw [hpo, hpu]
    have hpo' : List.findIdx? (fun v => decide (v.1 = own)) order =
      some si := hpo
    have hpu' : List.findIdx? (fun v => decide (v.1 = u)) order = none := hpu
    obtain ⟨h1, h2⟩ := findIdx?_insertAt_fresh
      (p := fun v => decide (v.1 = u)) (q := fun v => decide (v.1 = own))
      (u, tok) (by simp) (by simp [hne]) order si hpo' hpu'
    exact ⟨hstep, h1, h2⟩
  · intro own u tok order si oi hne hpo hpu hlt
    have hstep : depOrderStep own u tok order =
        some (insertAt si (u, tok) (eraseAt oi order)) := by
      unfold depOrderStep
      rw [hpo, hpu]
      simp only []
      rw [if_pos hlt]
    have hpo' : List.findIdx? (fun v => decide (v.1 = own)) order =
      some si := hpo
    have hpu' : List.findIdx? (fun v => decide (v.1 = u)) order =
      some oi := hpu
    have hdisj : ∀ x : CrateModule × TokenId,
        decide (x.1 = u) = true → decide (x.1 = own) = true → False :=
      fun x hx1 hx2 =>
        hne ((of_decide_eq_true hx1).symm.trans (of_decide_eq_true hx2))
    obtain ⟨h1, h2⟩ := findIdx?_relocate
      (p := fun v => decide (v.1 = u)) (q := fun v => decide (v.1 = own))
      (u, tok) (by simp) (by simp [hne]) hdisj order si oi hpo' hpu' hlt
    exact ⟨hstep, h1, h2⟩
  · intro fuel reg doc file src c m reg' fid dep_set u hp hg hu hune
    obtain ⟨reg1, hbranch, dep_set2, dep_order2, hpul, hord', hgraph, -, -⟩ :=
      parse_live_file_spec fuel reg doc file src c m reg' fid hp
    have hset : dep_set2 = dep_set := by
      rw [hgraph, alistGet_put_self] at hg
      injection hg
    subst hset
    have hbase : ImportsPrecede ⟨c, m⟩ [] reg1.dep_order := by
      refine ⟨?_, fun x hx => absurd hx (List.not_mem_nil x)⟩
      rcases hbranch with ⟨hnone, rfl⟩ | ⟨hsome, hmark⟩
      · refine ⟨reg.dep_order.length, ?_⟩
        exact pos_append_self reg.dep_order ⟨c, m⟩ default
          (Option.isNone_iff_eq_none.mp hnone)
      · obtain ⟨-, hdo, -, -, -, -⟩ := markDirtyF_preserves fuel _ reg reg1
          hmark
        rw [hdo]
        cases hq : depOrderPos reg.dep_order ⟨c, m⟩ with
        | none => rw [hq] at hsome; exact absurd hsome (by simp)
        | some po => exact ⟨po, rfl⟩
    have hinv := parseUseLevels_invariant ⟨c, m⟩ c doc doc.nodes
      ([], reg1.dep_order) (dep_set2, dep_order2) hpul hbase
    obtain ⟨pu, po, hpu2, hpo2, hlt⟩ := hinv.2 u hu hune
    rw [hord']
    exact ⟨pu, po, hpu2, hpo2, hlt⟩

theorem dep_order_repair_witness :
    depOrderStep ⟨1, 2⟩ ⟨3, 4⟩ ⟨⟨0⟩, 7⟩ [(⟨1, 2⟩, ⟨⟨0⟩, 0⟩)] =
      some [(⟨3, 4⟩, ⟨⟨0⟩, 7⟩), (⟨1, 2⟩, ⟨⟨0⟩, 0⟩)] ∧
    depOrderStep ⟨1, 2⟩ ⟨3, 4⟩ ⟨⟨0⟩, 7⟩
        [(⟨1, 2⟩, ⟨⟨0⟩, 0⟩), (⟨3, 4⟩, ⟨⟨0⟩, 1⟩)] =
      some [(⟨3, 4⟩, ⟨⟨0⟩, 7⟩), (⟨1, 2⟩, ⟨⟨0⟩, 0⟩)] ∧
    (∃ pu po, depOrderPos regMissingDep.dep_order ⟨11, 12⟩ = some pu ∧
      depOrderPos regMissingDep.dep_order ⟨20, 21⟩ = some po ∧ pu < po) := by
  refine ⟨?_, ?_, ?_⟩
  · exact (dep_order_repair.1 ⟨1, 2⟩ ⟨3, 4⟩ ⟨⟨0⟩, 7⟩
      [(⟨1, 2⟩, ⟨⟨0⟩, 0⟩)] 0 (by decide) (by decide) (by decide)).1.trans
      (by decide)
  · exact (dep_order_repair.2.1 ⟨1, 2⟩ ⟨3, 4⟩ ⟨⟨0⟩, 7⟩
      [(⟨1, 2⟩, ⟨⟨0⟩, 0⟩), (⟨3, 4⟩, ⟨⟨0⟩, 1⟩)] 0 1 (by decide) (by decide)
      (by decide) (by decide)).1.trans (by decide)
  · exact dep_order_repair.2.2 9 {} missingDepDoc "main.live" "srctext" 20 21
      regMissingDep ⟨0⟩ [⟨11, 12⟩] ⟨11, 12⟩ (by decide) (by decide)
      (by decide) (by decide)

lemma expandGo_length (reg : LiveRegistry) (fuel : Nat) :
    ∀ (entries : List (CrateModule × TokenId)) exp errs exp' errs',
    expandGo reg fuel entries exp errs = .ok (exp', errs') →
    exp'.length = exp.length := by
  intro entries
  induction entries with
  | nil =>
      intro exp errs exp' errs' h
      rw [expandGo] at h
      cases h
      rfl
  | cons e rest ih =>
      intro exp errs exp' errs' h
      obtain ⟨cm, tok⟩ := e
      rw [expandGo] at h
      cases hfid : alistGet reg.crate_module_to_file_id cm with
      | none => rw [hfid] at h; exact ih _ _ _ _ h
      | some fid =>
          rw [hfid] at h
          simp only [] at h
          by_cases hdirty : (exp.getD fid.to_index {}).recompile
          · rw [if_neg (not_not_intro hdirty)] at h
            cases hw : walkTopNodes fuel
                ⟨exp, reg.crate_module_to_file_id, cm.crateId, fid,
                  (reg.live_files.getD fid.to_index default).document⟩
                (((reg.live_files.getD fid.to_index
                  default).document).nodes.getD 0 []).length 0
                ⟨errs, ⟨[[]]⟩, (exp.getD fid.to_index {}).restart_from
                  (reg.live_files.getD fid.to_index default).document⟩ with
            | ok st =>
                rw [hw] at h
                have := ih _ _ _ _ h
                rw [this, List.length_set]
            | panicked => rw [hw] at h; exact Outcome.noConfusion h
            | nofuel => rw [hw] at h; exact Outcome.noConfusion h
          · rw [if_pos hdirty] at h
            exact ih _ _ _ _ h

lemma expandGo_keeps_clean (reg : LiveRegistry) (fuel : Nat) :
    ∀ (entries : List (CrateModule × TokenId)) exp errs exp' errs',
    expandGo reg fuel entries exp errs = .ok (exp', errs') →
    ∀ i, (exp.getD i {}).recompile = false →
    (exp'.getD i {}).recompile = false := by
  intro entries
  induction entries with
  | nil =>
      intro exp errs exp' errs' h i hi
      rw [expandGo] at h
      cases h
      exact hi
  | cons e rest ih =>
      intro exp errs exp' errs' h i hi
      obtain ⟨cm, tok⟩ := e
      rw [expandGo] at h
      cases hfid : alistGet reg.crate_module_to_file_id cm with
      | none => rw [hfid] at h; exact ih _ _ _ _ h i hi
      | some fid =>
          rw [hfid] at h
          simp only [] at h
          by_cases hdirty : (exp.getD fid.to_index {}).recompile
          · rw [if_neg (not_not_intro hdirty)] at h
            cases hw : walkTopNodes fuel
                ⟨exp, reg.crate_module_to_file_id, cm.crateId, fid,
                  (reg.live_files.getD fid.to_index default).document⟩
                (((reg.live_files.getD fid.to_index
                  default).document).nodes.getD 0 []).length 0
                ⟨errs, ⟨[[]]⟩, (exp.getD fid.to_index {}).restart_from
                  (reg.live_files.getD fid.to_index default).document⟩ with
            | ok st =>
                rw [hw] at h
                refine ih _ _ _ _ h i ?_
                by_cases hie : i = fid.to_index
                · subst hie
                  rw [hi] at hdirty
                  exact absurd hdirty (by decide)
                · rw [getD_set_other _ _ _ _ _ hie]
                  exact hi
            | panicked => rw [hw] at h; exact Outcome.noConfusion h
            | nofuel => rw [hw] at h; exact Outcome.noConfusion h
          · rw [if_pos hdirty] at h
            exact ih _ _ _ _ h i hi

lemma expandGo_clears (reg : LiveRegistry) (fuel : Nat) :
    ∀ (entries : List (CrateModule × TokenId)) exp errs exp' errs',
    expandGo reg fuel entries exp errs = .ok (exp', errs') →
    ∀ cm tok fid, (cm, tok) ∈ entries →
    alistGet reg.crate_module_to_file_id cm = some fid →
    fid.to_index < exp.length →
    (exp'.getD fid.to_index {}).recompile = false := by
  intro entries
  induction entries with
  | nil =>
      intro exp errs exp' errs' h cm tok fid hmem
      exact absurd hmem (List.not_mem_nil _)
  | cons e rest ih =>
      intro exp errs exp' errs' h cm tok fid hmem hfid hrange
      obtain ⟨cm0, tok0⟩ := e
      rw [expandGo] at h
      cases hfid0 : alistGet reg.crate_module_to_file_id cm0 with
      | none =>
          rw [hfid0] at h
          rcases List.mem_cons.mp hmem with heq | hrest
          · injection heq with he1 he2
            subst he1
            rw [hfid0] at hfid
            exact Option.noConfusion hfid
          · exact ih _ _ _ _ h cm tok fid hrest hfid hrange
      | some fid0 =>
          rw [hfid0] at h
          simp only [] at h
          by_cases hdirty : (exp.getD fid0.to_index {}).recompile
          · rw [if_neg (not_not_intro hdirty)] at h
            cases hw : walkTopNodes fuel
                ⟨exp, reg.crate_module_to_file_id, cm0.crateId, fid0,
                  (reg.live_files.getD fid0.to_index default).document⟩
                (((reg.live_files.getD fid0.to_index
                  default).document).nodes.getD 0 []).length 0
                ⟨errs, ⟨[[]]⟩, (exp.getD fid0.to_index {}).restart_from
                  (reg.live_files.getD fid0.to_index default).document⟩ with
            | ok st =>
                rw [hw] at h
                rcases List.mem_cons.mp hmem with heq | hrest
                · injection heq with he1 he2
                  subst he1
                  rw [hfid0] at hfid
                  injection hfid with he3
                  subst he3
                  refine expandGo_keeps_clean reg fuel rest _ _ _ _ h
                    fid0.to_index ?_
                  rw [getD_set_self _ _ _ _ hrange]
                · exact ih _ _ _ _ h cm tok fid hrest hfid
                    (by rw [List.length_set]; exact hrange)
            | panicked => rw [hw] at h; exact Outcome.noConfusion h
            | nofuel => rw [hw] at h; exact Outcome.noConfusion h
          · rw [if_pos hdirty] at h
            rcases List.mem_cons.mp hmem with heq | hrest
            · injection heq with he1 he2
              subst he1
              rw [hfid0] at hfid
              injection hfid with he3
              subst he3
              refine expandGo_keeps_clean reg fuel rest _ _ _ _ h
                fid0.to_index ?_
              simp only [Bool.not_eq_true] at hdirty
              exact hdirty
            · exact ih _ _ _ _ h cm tok fid hrest hfid hrange

lemma expandGo_all_clean (reg : LiveRegistry) (fuel : Nat) :
    ∀ (entries : List (CrateModule × TokenId)) exp errs,
    (∀ cm fid, alistGet reg.crate_module_to_file_id cm = some fid →
      fid.to_index < exp.length) →
    (∀ i, i < exp.length → (exp.getD i {}).recompile = false) →
    ∃ errs', expandGo reg fuel entries exp errs = .ok (exp, errs') := by
  intro entries
  induction entries with
  | nil =>
      intro exp errs hrng hclean
      exact ⟨errs, by rw [expandGo]⟩
  | cons e rest ih =>
      intro exp errs hrng hclean
      obtain ⟨cm, tok⟩ := e
      cases hfid : alistGet reg.crate_module_to_file_id cm with
      | none =>
          obtain ⟨errs', he⟩ := ih exp
            (errs ++ [⟨reg.token_id_to_span tok, .cannotFindDependency cm⟩])
            hrng hclean
          exact ⟨errs', by rw [expandGo, hfid]; exact he⟩
      | some fid =>
          have hflag : (exp.getD fid.to_index {}).recompile = false :=
            hclean fid.to_index (hrng cm fid hfid)
          obtain ⟨errs', he⟩ := ih exp errs hrng hclean
          refine ⟨errs', ?_⟩
          rw [expandGo, hfid]
          simp only []
          rw [if_pos (by rw [hflag]; decide)]
          exact he

/-- C4: expansion is idempotent.  If every expanded-document slot belongs
to some crate-module in the processing order (`CoveredReg`) and every
registered file identity is in range (`RangedReg`), then after one
successful `expand_all_documents` pass no expanded document is dirty, and
a second pass (with any fuel and incoming error list, and no intervening
`parse_live_file`) succeeds and returns the registry unchanged — every
expanded document byte-identical to its state after the first pass. -/
theorem expand_all_documents_idempotent (fuel fuel2 : Nat)
    (reg reg1 : LiveRegistry) (errs0 errs1 : List LiveError)
    (hcov : CoveredReg reg) (hrng : RangedReg reg)
    (h1 : expand_all_documents fuel reg errs0 = .ok (reg1, errs1)) :
    (∀ d ∈ reg1.expanded, d.recompile = false) ∧
    ∀ errsB : List LiveError, ∃ errs2,
      expand_all_documents fuel2 reg1 errsB = .ok (reg1, errs2) := by
  rw [expand_all_documents] at h1
  cases hgo : expandGo reg fuel reg.dep_order reg.expanded errs0 with
  | panicked => rw [hgo] at h1; exact Outcome.noConfusion h1
  | nofuel => rw [hgo] at h1; exact Outcome.noConfusion h1
  | ok p =>
      obtain ⟨exp', errs'⟩ := p
      rw [hgo] at h1
      injection h1 with hp
      injection hp with hr he
      subst hr
      have hlen : exp'.length = reg.expanded.length :=
        expandGo_length reg fuel reg.dep_order _ _ _ _ hgo
      have hallfalse : ∀ i, i < exp'.length →
          (exp'.getD i {}).recompile = false := by
        intro i hi
        rw [hlen] at hi
        obtain ⟨cm, tok, fid, hmem, hf, hidx⟩ := hcov i hi
        subst hidx
        exact expandGo_clears reg fuel reg.dep_order _ _ _ _ hgo cm tok fid
          hmem hf (hrng cm fid hf)
      constructor
      · intro d hd
        obtain ⟨i, hi, hdi⟩ := List.mem_iff_getElem.mp hd
        have h2 := hallfalse i hi
        rw [List.getD_eq_getElem?_getD, List.getElem?_eq_getElem hi] at h2
        rw [← hdi]
        simpa using h2
      · intro errsB
        obtain ⟨errs2, hgo2⟩ := expandGo_all_clean
          { reg with expanded := exp' } fuel2 reg.dep_order exp' errsB
          (fun cm fid hf => by rw [hlen]; exact hrng cm fid hf) hallfalse
        refine ⟨errs2, ?_⟩
        rw [expand_all_documents]
        rw [show ({ reg with expanded := exp' } :
          LiveRegistry).dep_order = reg.dep_order from rfl]
        rw [show ({ reg with expanded := exp' } :
          LiveRegistry).expanded = exp' from rfl]
        rw [hgo2]

/-- C4 witness: the idempotence theorem applied to the concrete one-file
registry `regSolo`, whose coverage and range hypotheses are discharged
explicitly and whose first pass is evaluated by `decide`. -/
theorem expand_all_documents_idempotent_witness :
    (∀ d ∈ regSolo1.expanded, d.recompile = false) ∧
    ∀ errsB : List LiveError, ∃ errs2,
      expand_all_documents 98 regSolo1 errsB = .ok (regSolo1, errs2) :=
  expand_all_documents_idempotent 99 98 regSolo regSolo1 [] []
    (by
      intro i hi
      rw [show regSolo.expanded.length = 1 from rfl] at hi
      have h0 : i = 0 := Nat.lt_one_iff.mp hi
      subst h0
      exact ⟨⟨20, 21⟩, ⟨⟨0⟩, 0⟩, ⟨0⟩, by decide, by decide, rfl⟩)
    (by
      intro cm fid h
      rw [show regSolo.crate_module_to_file_id =
        [((⟨20, 21⟩ : CrateModule), (⟨0⟩ : FileId))] from rfl] at h
      rw [alistGet] at h
      by_cases hc : (⟨20, 21⟩ : CrateModule) = cm
      · rw [if_pos hc] at h
        injection h with h2
        rw [← h2]
        decide
      · rw [if_neg hc, alistGet] at h
        exact Option.noConfusion h)
    (by decide)

lemma directImporters_eq (reg : LiveRegistry) (cm : CrateModule) :
    reg.directImporters cm = importersOf reg.dep_graph cm := rfl

lemma ImporterOf_inv {g : List (CrateModule × List CrateModule)}
    {a b : CrateModule} (h : ImporterOf g a b) :
    ∃ d ∈ importersOf g a, b = d ∨ ImporterOf g d b := by
  cases h with
  | direct hd => exact ⟨b, hd, .inl rfl⟩
  | step hc h2 => exact ⟨_, hc, .inr h2⟩

lemma fileId_eq_of_to_index {f g : FileId} (h : f.to_index = g.to_index) :
    f = g := by
  cases f with
  | mk i =>
      cases g with
      | mk j =>
          simp only [FileId.to_index] at h
          subst h
          rfl

lemma markSelf_mono (reg : LiveRegistry) (cm : CrateModule) (i : Nat)
    (h : (reg.expanded.getD i {}).recompile = true) :
    ((reg.markSelf cm).expanded.getD i {}).recompile = true := by
  unfold LiveRegistry.markSelf LiveRegistry.setRecompile
  cases hf : alistGet reg.crate_module_to_file_id cm with
  | none => exact h
  | some fid =>
      simp only []
      by_cases hi : i = fid.to_index
      · subst hi
        by_cases hr : fid.to_index < reg.expanded.length
        · rw [getD_set_self _ _ _ _ hr]
        · rw [List.set_eq_of_length_le (by omega)]
          exact h
      · rw [getD_set_other _ _ _ _ _ hi]
        exact h

lemma markSelf_marks (reg : LiveRegistry) (cm : CrateModule) (fid : FileId)
    (hf : alistGet reg.crate_module_to_file_id cm = some fid)
    (hr : fid.to_index < reg.expanded.length) :
    ((reg.markSelf cm).expanded.getD fid.to_index {}).recompile = true := by
  unfold LiveRegistry.markSelf
  rw [hf]
  unfold LiveRegistry.setRecompile
  rw [getD_set_self _ _ _ _ hr]

lemma markDirtyF_mono : ∀ (fuel : Nat) call (reg reg' : LiveRegistry),
    markDirtyF fuel call reg = some reg' →
    ∀ i, (reg.expanded.getD i {}).recompile = true →
    (reg'.expanded.getD i {}).recompile = true := by
  intro fuel
  induction fuel with
  | zero => intro call reg reg' h; exact Option.noConfusion h
  | succ f ih =>
      intro call reg reg' h i hi
      cases call with
      | inl cm =>
          rw [markDirtyF] at h
          exact ih _ _ _ h i (markSelf_mono reg cm i hi)
      | inr ds =>
          cases ds with
          | nil =>
              rw [markDirtyF] at h
              cases h
              exact hi
          | cons d rest =>
              rw [markDirtyF] at h
              cases hm : markDirtyF f (.inl d) reg with
              | none => rw [hm] at h; exact Option.noConfusion h
              | some reg2 =>
                  rw [hm] at h
                  exact ih _ _ _ h i (ih _ _ _ hm i hi)

lemma markDirtyF_marks : ∀ (fuel : Nat)
    (call : Sum CrateModule (List CrateModule)) (reg reg' : LiveRegistry),
    markDirtyF fuel call reg = some reg' →
    ∀ b fidb,
    (match call with
     | .inl a => b = a ∨ ImporterOf reg.dep_graph a b
     | .inr l => ∃ d ∈ l, b = d ∨ ImporterOf reg.dep_graph d b) →
    alistGet reg.crate_module_to_file_id b = some fidb →
    fidb.to_index < reg.expanded.length →
    (reg'.expanded.getD fidb.to_index {}).recompile = true := by
  intro fuel
  induction fuel with
  | zero => intro call reg reg' h; exact Option.noConfusion h
  | succ f ih =>
      intro call reg reg' h b fidb hreach hfb hrb
      cases call with
      | inl a =>
          rw [markDirtyF] at h
          obtain ⟨p1, p2, p3, p4, p5, p6⟩ := markSelf_fields reg a
          rcases hreach with heq | himp
          · subst heq
            exact markDirtyF_mono f _ _ _ h fidb.to_index
              (markSelf_marks reg b fidb hfb hrb)
          · obtain ⟨d, hd, hrest⟩ := ImporterOf_inv himp
            refine ih _ _ _ h b fidb ⟨d, ?_, ?_⟩ ?_ ?_
            · rw [directImporters_eq]
              exact hd
            · rw [p3]
              exact hrest
            · rw [p1]
              exact hfb
            · rw [p6]
              exact hrb
      | inr ds =>
          cases ds with
          | nil =>
              obtain ⟨d, hd, -⟩ := hreach
              exact absurd hd (List.not_mem_nil d)
          | cons d0 rest =>
              rw [markDirtyF] at h
              cases hm : markDirtyF f (.inl d0) reg with
              | none => rw [hm] at h; exact Option.noConfusion h
              | some reg2 =>
                  rw [hm] at h
                  obtain ⟨q1, q2, q3, q4, q5, q6⟩ :=
                    markDirtyF_preserves f _ _ _ hm
                  obtain ⟨d, hd, hrest⟩ := hreach
                  rcases List.mem_cons.mp hd with hd0 | hdrest
                  · subst hd0
                    exact markDirtyF_mono f _ _ _ h fidb.to_index
                      (ih _ _ _ hm b fidb hrest hfb hrb)
                  · refine ih _ _ _ h b fidb ⟨d, hdrest, ?_⟩ ?_ ?_
                    · rw [q3]
                      exact hrest
                    · rw [q1]
                      exact hfb
                    · rw [q6]
                      exact hrb

lemma expandGoLog_log_mono (reg : LiveRegistry) (fuel : Nat) :
    ∀ (entries : List (CrateModule × TokenId)) exp errs log exp2 errs2 log2,
    expandGoLog reg fuel entries exp errs log = .ok (exp2, errs2, log2) →
    ∀ x ∈ log, x ∈ log2 := by
  intro entries
  induction entries with
  | nil =>
      intro exp errs log exp2 errs2 log2 h x hx
      rw [expandGoLog] at h
      cases h
      exact hx
  | cons e rest ih =>
      intro exp errs log exp2 errs2 log2 h x hx
      obtain ⟨cm, tok⟩ := e
      rw [expandGoLog] at h
      cases hfid : alistGet reg.crate_module_to_file_id cm with
      | none => rw [hfid] at h; exact ih _ _ _ _ _ _ h x hx
      | some fid =>
          rw [hfid] at h
          simp only [] at h
          by_cases hdirty : (exp.getD fid.to_index {}).recompile
          · rw [if_neg (not_not_intro hdirty)] at h
            cases hw : walkTopNodes fuel
                ⟨exp, reg.crate_module_to_file_id, cm.crateId, fid,
                  (reg.live_files.getD fid.to_index default).document⟩
                (((reg.live_files.getD fid.to_index
                  default).document).nodes.getD 0 []).length 0
                ⟨errs, ⟨[[]]⟩, (exp.getD fid.to_index {}).restart_from
                  (reg.live_files.getD fid.to_index default).document⟩ with
            | ok st =>
                rw [hw] at h
                exact ih _ _ _ _ _ _ h x (by simp [hx])
            | panicked => rw [hw] at h; exact Outcome.noConfusion h
            | nofuel => rw [hw] at h; exact Outcome.noConfusion h
          · rw [if_pos hdirty] at h
            exact ih _ _ _ _ _ _ h x hx

lemma expandGoLog_rebuilds (reg : LiveRegistry) (fuel : Nat) :
    ∀ (entries : List (CrateModule × TokenId)) exp errs log exp2 errs2 log2,
    expandGoLog reg fuel entries exp errs log = .ok (exp2, errs2, log2) →
    ∀ cm tok fid, (cm, tok) ∈ entries →
    alistGet reg.crate_module_to_file_id cm = some fid →
    (exp.getD fid.to_index {}).recompile = true →
    fid ∈ log2 := by
  intro entries
  induction entries with
  | nil =>
      intro exp errs log exp2 errs2 log2 h cm tok fid hmem
      exact absurd hmem (List.not_mem_nil _)
  | cons e rest ih =>
      intro exp errs log exp2 errs2 log2 h cm tok fid hmem hfid hflag
      obtain ⟨cm0, tok0⟩ := e
      rw [expandGoLog] at h
      cases hfid0 : alistGet reg.crate_module_to_file_id cm0 with
      | none =>
          rw [hfid0] at h
          rcases List.mem_cons.mp hmem with heq | hrest
          · injection heq with he1 he2
            subst he1
            rw [hfid0] at hfid
            exact Option.noConfusion hfid
          · exact ih _ _ _ _ _ _ h cm tok fid hrest hfid hflag
      | some fid0 =>
          rw [hfid0] at h
          simp only [] at h
          by_cases hdirty : (exp.getD fid0.to_index {}).recompile
          · rw [if_neg (not_not_intro hdirty)] at h
            cases hw : walkTopNodes fuel
                ⟨exp, reg.crate_module_to_file_id, cm0.crateId, fid0,
                  (reg.live_files.getD fid0.to_index default).document⟩
                (((reg.live_files.getD fid0.to_index
                  default).document).nodes.getD 0 []).length 0
                ⟨errs, ⟨[[]]⟩, (exp.getD fid0.to_index {}).restart_from
                  (reg.live_files.getD fid0.to_index default).document⟩ with
            | ok st =>
                rw [hw] at h
                by_cases hix : fid.to_index = fid0.to_index
                · have hfe : fid = fid0 := fileId_eq_of_to_index hix
                  subst hfe
                  exact expandGoLog_log_mono reg fuel rest _ _ _ _ _ _ h
                    fid (by simp)
                · rcases List.mem_cons.mp hmem with heq | hrest
                  · injection heq with he1 he2
                    subst he1
                    rw [hfid0] at hfid
                    injection hfid with he3
                    exact absurd (congrArg FileId.to_index he3.symm) hix
                  · refine ih _ _ _ _ _ _ h cm tok fid hrest hfid ?_
                    rw [getD_set_other _ _ _ _ _ hix]
                    exact hflag
            | panicked => rw [hw] at h; exact Outcome.noConfusion h
            | nofuel => rw [hw] at h; exact Outcome.noConfusion h
          · rw [if_pos hdirty] at h
            rcases List.mem_cons.mp hmem with heq | hrest
            · injection heq with he1 he2
              subst he1
              rw [hfid0] at hfid
              injection hfid with he3
              subst he3
              exact absurd hflag hdirty
            · exact ih _ _ _ _ _ _ h cm tok fid hrest hfid hflag

/-- The instrumented pass agrees with the real one: dropping the log
component of `expandGoLog` gives exactly `expandGo`. -/
lemma expandGoLog_agrees (reg : LiveRegistry) (fuel : Nat) :
    ∀ (entries : List (CrateModule × TokenId)) exp errs log,
    expandGo reg fuel entries exp errs =
      (match expandGoLog reg fuel entries exp errs log with
       | .ok (e, r, _) => .ok (e, r)
       | .panicked => .panicked
       | .nofuel => .nofuel) := by
  intro entries
  induction entries with
  | nil =>
      intro exp errs log
      rw [expandGo, expandGoLog]
  | cons e rest ih =>
      intro exp errs log
      obtain ⟨cm, tok⟩ := e
      rw [expandGo, expandGoLog]
      cases hfid : alistGet reg.crate_module_to_file_id cm with
      | none => exact ih _ _ _
      | some fid =>
          simp only []
          by_cases hdirty : (exp.getD fid.to_index {}).recompile
          · rw [if_neg (not_not_intro hdirty), if_neg (not_not_intro hdirty)]
            cases hw : walkTopNodes fuel
                ⟨exp, reg.crate_module_to_file_id, cm.crateId, fid,
                  (reg.live_files.getD fid.to_index default).document⟩
                (((reg.live_files.getD fid.to_index
                  default).document).nodes.getD 0 []).length 0
                ⟨errs, ⟨[[]]⟩, (exp.getD fid.to_index {}).restart_from
                  (reg.live_files.getD fid.to_index default).document⟩ with
            | ok st => exact ih _ _ _
            | panicked => rfl
            | nofuel => rfl
          · rw [if_pos hdirty, if_pos hdirty]
            exact ih _ _ _

/-- C5: dirty propagation on re-registration, and rebuild on the next
pass.  If `parse_live_file` re-registers crate-module `(c, m)` (already in
the processing order) and succeeds, then every module `b` that imports
`(c, m)` directly or transitively (and `(c, m)` itself) has its expanded
document marked dirty in the resulting registry; and on the next pass
(`expandGoLog`, the rebuild-logging instrumentation of the pass driven by
`expand_all_documents` — they agree by `expandGoLog_agrees`), `b`'s
document is rebuilt, while the pass returns exactly what
`expand_all_documents` returns. -/
theorem dirty_propagation_rebuilds
    (fuel : Nat) (reg reg' : LiveRegistry) (doc : LiveDocument)
    (file src : String) (c m : LId) (fid : FileId)
    (h : parse_live_file fuel reg (.parsed doc) file c m src =
      .ok (reg', fid))
    (hknown : (depOrderPos reg.dep_order ⟨c, m⟩).isNone = false)
    (b : CrateModule) (fidb : FileId)
    (hreach : b = ⟨c, m⟩ ∨ ImporterOf reg.dep_graph ⟨c, m⟩ b)
    (hfb : alistGet reg.crate_module_to_file_id b = some fidb)
    (hrb : fidb.to_index < reg.expanded.length) :
    (reg'.expanded.getD fidb.to_index {}).recompile = true ∧
    ∀ (fuel2 : Nat) (tokb : TokenId) (errsB : List LiveError)
      (exp2 : List LiveDocument) (errs2 : List LiveError)
      (log2 : List FileId),
      (b, tokb) ∈ reg'.dep_order →
      alistGet reg'.crate_module_to_file_id b = some fidb →
      expandGoLog reg' fuel2 reg'.dep_order reg'.expanded errsB [] =
        .ok (exp2, errs2, log2) →
      fidb ∈ log2 ∧
      expand_all_documents fuel2 reg' errsB =
        .ok ({ reg' with expanded := exp2 }, errs2) := by
  obtain ⟨reg1, hbranch, dep_set, dep_order2, hpul, hord', hgraph', hmap',
    hpres⟩ := parse_live_file_spec fuel reg doc file src c m reg' fid h
  rcases hbranch with ⟨hisnone, -⟩ | ⟨-, hmark⟩
  · rw [hknown] at hisnone
    exact Bool.noConfusion hisnone
  · have hflag1 : (reg1.expanded.getD fidb.to_index {}).recompile = true :=
      markDirtyF_marks fuel (.inl ⟨c, m⟩) reg reg1 hmark b fidb hreach
        hfb hrb
    have hflag' : (reg'.expanded.getD fidb.to_index {}).recompile = true :=
      hpres fidb.to_index hflag1
    refine ⟨hflag', ?_⟩
    intro fuel2 tokb errsB exp2 errs2 log2 hmem hfb2 hrun
    refine ⟨expandGoLog_rebuilds reg' fuel2 reg'.dep_order _ _ _ _ _ _
      hrun b tokb fidb hmem hfb2 hflag', ?_⟩
    rw [expand_all_documents]
    rw [expandGoLog_agrees reg' fuel2 reg'.dep_order reg'.expanded errsB []]
    rw [hrun]

/-- C5 witness: in the concrete three-module registry `regClean5`
(importers (30, 31) and (40, 41) of (20, 21), all clean), re-registering
(20, 21) marks importer (30, 31)'s document (slot 1) dirty, and the next
pass rebuilds it (its file identity is in the rebuild log). -/
theorem dirty_propagation_rebuilds_witness :
    (regPost5.expanded.getD (FileId.to_index ⟨1⟩) {}).recompile = true ∧
    ((⟨1⟩ : FileId) ∈ ([⟨0⟩, ⟨1⟩, ⟨2⟩] : List FileId) ∧
      expand_all_documents 99 regPost5 [] =
        .ok ({ regPost5 with expanded := regPost5Exp }, [])) := by
  have hmain := dirty_propagation_rebuilds 9 regClean5 regPost5 docA5
    "a.live" "s" 20 21 ⟨0⟩ (by decide) (by decide)
    ⟨30, 31⟩ ⟨1⟩ (.inr (.direct (by decide))) (by decide) (by decide)
  exact ⟨hmain.1, hmain.2 99 ⟨⟨0⟩, 0⟩ [] regPost5Exp [] [⟨0⟩, ⟨1⟩, ⟨2⟩]
    (by decide) (by decide) (by decide)⟩

/-- C7: overriding inside a non-class base is rejected; a pure alias is
permitted.  For a class declaration whose base identifier is neither
`Self` nor a shader baseclass, whose base resolves successfully, and whose
structural copy reports a non-class result: if the declaration has at
least one override field the walker records a `cannotOverrideNonClass`
error and returns with the output document exactly as the copy left it
(none of the override fields are walked into the output; the pushed scope
frame is leaked, as in the source); with zero own fields it returns with
no error, the frame popped, and the copied base value in place. -/
theorem non_class_override_rejected (f : Nat) (ctx : WalkCtx) (st : WalkSt)
    (in_level out_level in_node_index out_start out_count : Nat)
    (node : LiveNode) (base : IdPack) (node_start node_count : Nat)
    (resloc : Option FileId) (found_node : LocalNodePtr)
    (cr : CopyRecurResult) (od1 : LiveDocument)
    (h_node : ctx.in_doc.getNode in_level in_node_index = node)
    (h_val : node.value = .cls base node_start node_count)
    (h_self : ¬ base = idPackSelf)
    (h_base : ¬ is_baseclass base)
    (h_res : resolve_id base ctx.expanded node.token_id
      ⟨st.scope_stack.stack ++ [[]]⟩ ctx.in_doc st.out_doc out_level
      out_start = .ok (resloc, found_node))
    (h_copy : copy_recur (f + 1)
      (resloc.map (fun ffid => (ctx.expanded.getD ffid.to_index {}, ffid)))
      st.out_doc node.id_pack found_node.level found_node.level
      (shiftedOutLevel node.id_pack out_level) found_node.index =
      some (cr, od1))
    (h_cr : ∀ b, cr ≠ .isClass b) :
    (0 < node_count →
      walk_node (f + 2) ctx st in_level out_level in_node_index out_start
        out_count = .ok ⟨st.errors ++
          [⟨ctx.in_doc.token_id_to_span node.token_id,
            .cannotOverrideNonClass base⟩],
          ⟨st.scope_stack.stack ++ [[]]⟩, od1⟩) ∧
    (node_count = 0 →
      walk_node (f + 2) ctx st in_level out_level in_node_index out_start
        out_count = .ok ⟨st.errors, ⟨st.scope_stack.stack⟩, od1⟩) := by
  have hred : walk_node (f + 2) ctx st in_level out_level in_node_index
      out_start out_count =
      walkF ctx (f + 1) (.classTail node base node_start node_count in_level
        out_level out_start out_count
        (shiftedOutLevel node.id_pack out_level)
        (st.out_doc.get_level_len
          (shiftedOutLevel node.id_pack out_level + 1))
        cr (some found_node) resloc
        ⟨st.errors, ⟨st.scope_stack.stack ++ [[]]⟩, od1⟩) := by
    rw [walk_node, walkF, h_node, h_val]
    simp only []
    rw [if_neg h_self, if_pos h_base]
    cases resloc with
    | none =>
        rw [h_res]
        simp only []
        rw [show copy_recur (f + 1) none st.out_doc node.id_pack
          found_node.level found_node.level
          (shiftedOutLevel node.id_pack out_level) found_node.index =
          some (cr, od1) from h_copy]
    | some ffid =>
        rw [h_res]
        simp only []
        rw [show copy_recur (f + 1)
          (some (ctx.expanded.getD ffid.to_index {}, ffid)) st.out_doc
          node.id_pack found_node.level found_node.level
          (shiftedOutLevel node.id_pack out_level) found_node.index =
          some (cr, od1) from h_copy]
  cases cr with
  | isClass b => exact absurd rfl (h_cr b)
  | noop =>
      have hstep : walkF ctx (f + 1) (.classTail node base node_start
          node_count in_level out_level out_start out_count
          (shiftedOutLevel node.id_pack out_level)
          (st.out_doc.get_level_len
            (shiftedOutLevel node.id_pack out_level + 1))
          .noop (some found_node) resloc
          ⟨st.errors, ⟨st.scope_stack.stack ++ [[]]⟩, od1⟩) =
          if node_count > 0 then
            .ok ⟨st.errors ++ [⟨ctx.in_doc.token_id_to_span node.token_id,
              .cannotOverrideNonClass base⟩],
              ⟨st.scope_stack.stack ++ [[]]⟩, od1⟩
          else
            .ok ⟨st.errors, ⟨(st.scope_stack.stack ++ [[]]).dropLast⟩,
              od1⟩ := rfl
      constructor
      · intro hc
        rw [hred, hstep, if_pos hc]
      · intro hc
        subst hc
        rw [hred, hstep, if_neg (by omega), List.dropLast_concat]
  | errorRes =>
      have hstep : walkF ctx (f + 1) (.classTail node base node_start
          node_count in_level out_level out_start out_count
          (shiftedOutLevel node.id_pack out_level)
          (st.out_doc.get_level_len
            (shiftedOutLevel node.id_pack out_level + 1))
          .errorRes (some found_node) resloc
          ⟨st.errors, ⟨st.scope_stack.stack ++ [[]]⟩, od1⟩) =
          if node_count > 0 then
            .ok ⟨st.errors ++ [⟨ctx.in_doc.token_id_to_span node.token_id,
              .cannotOverrideNonClass base⟩],
              ⟨st.scope_stack.stack ++ [[]]⟩, od1⟩
          else
            .ok ⟨st.errors, ⟨(st.scope_stack.stack ++ [[]]).dropLast⟩,
              od1⟩ := rfl
      constructor
      · intro hc
        rw [hred, hstep, if_pos hc]
      · intro hc
        subst hc
        rw [hred, hstep, if_neg (by omega), List.dropLast_concat]

/-- C7 witness: on `doc7`, walking the one-field override of the
non-class base records the error and leaves the scope frame pushed, while
walking the zero-field alias succeeds silently with the frame popped. -/
theorem non_class_override_rejected_witness :
    (walk_node 9 ctx7 st7 0 0 1 1 0 = .ok
      ⟨[⟨⟨⟨0⟩, 1⟩, .cannotOverrideNonClass (.single 11)⟩],
        ⟨st7.scope_stack.stack ++ [[]]⟩, od7a⟩) ∧
    (walk_node 9 ctx7 st7 0 0 2 1 0 = .ok
      ⟨[], ⟨st7.scope_stack.stack⟩, od7b⟩) :=
  ⟨(non_class_override_rejected 7 ctx7 st7 0 0 1 1 0
      ⟨⟨⟨0⟩, 1⟩, .single 12, .cls (.single 11) 0 1⟩ (.single 11) 0 1
      none ⟨0, 0⟩ .noop od7a rfl rfl (by decide) (by decide) rfl rfl
      (fun b h => CopyRecurResult.noConfusion h)).1 (by decide),
   (non_class_override_rejected 7 ctx7 st7 0 0 2 1 0
      ⟨⟨⟨0⟩, 2⟩, .single 13, .cls (.single 11) 0 0⟩ (.single 11) 0 0
      none ⟨0, 0⟩ .noop od7b rfl rfl (by decide) (by decide) rfl rfl
      (fun b h => CopyRecurResult.noConfusion h)).2 rfl⟩

end MakepadLive
